import Mathlib

/-!
Verification of the Newsbreak-API content pipeline.

Python strings are modelled as `List Char` (Lean's `Char` is a Unicode scalar
value, matching CPython's `str` code points).  Pure string-building code is
translated directly; calls into external collaborators (the `markdown`
library, `json.loads` on arbitrary network bodies, the HTTP transport) enter
the model as explicit function arguments or as already-parsed values.
-/

/-! ## Basic string utilities -/

/-- Whitespace test used by Python's `str.strip()` (ASCII whitespace subset,
which covers every character `markdown` output can carry at its edges). -/
def isSpc (c : Char) : Bool :=
  c = ' ' || c = '\t' || c = '\n' || c = '\r' || c = '\x0b' || c = '\x0c'

/-- Python `str.strip()`. -/
def pyStrip (s : List Char) : List Char :=
  ((s.dropWhile isSpc).reverse.dropWhile isSpc).reverse

/-- `isPre p s` holds when `p` is an initial segment of `s`
(Python `str.startswith`). -/
def isPre : List Char → List Char → Bool
  | [], _ => true
  | _ :: _, [] => false
  | p :: ps, c :: cs => p = c && isPre ps cs

/-- Python `str.endswith`. -/
def endsW (p s : List Char) : Bool := isPre p.reverse s.reverse

theorem isPre_iff (p s : List Char) : isPre p s = true ↔ ∃ t, s = p ++ t := by
  induction p generalizing s with
  | nil => simp [isPre]
  | cons a ps ih =>
    cases s with
    | nil => simp [isPre]
    | cons c cs =>
      simp only [isPre, Bool.and_eq_true, decide_eq_true_eq, ih, List.cons_append,
        List.cons.injEq]
      constructor
      · rintro ⟨rfl, t, rfl⟩; exact ⟨t, rfl, rfl⟩
      · rintro ⟨t, rfl, rfl⟩; exact ⟨rfl, t, rfl⟩

theorem isPre_append (p t : List Char) : isPre p (p ++ t) = true :=
  (isPre_iff p (p ++ t)).mpr ⟨t, rfl⟩

/-- Locate the first occurrence of `pat` in `s`, returning the text before it
and the text after it.  This is the matching discipline of Python's
`re.sub(r'<p>(.*?)</p>', ...)`: leftmost match, shortest (lazy) body. -/
def splitFirst (pat : List Char) : List Char → Option (List Char × List Char)
  | [] => none
  | c :: cs =>
    if isPre pat (c :: cs) then some ([], (c :: cs).drop pat.length)
    else
      match splitFirst pat cs with
      | some (a, b) => some (c :: a, b)
      | none => none

theorem splitFirst_some_eq {pat s : List Char} {a b : List Char}
    (h : splitFirst pat s = some (a, b)) : s = a ++ pat ++ b := by
  induction s generalizing a b with
  | nil => simp [splitFirst] at h
  | cons c cs ih =>
    rw [splitFirst] at h
    by_cases hp : isPre pat (c :: cs) = true
    · rw [if_pos hp] at h
      obtain ⟨t, ht⟩ := (isPre_iff _ _).mp hp
      injection h with h'
      injection h' with h1 h2
      subst h1
      rw [ht, List.drop_left] at h2
      subst h2
      simpa using ht
    · rw [if_neg hp] at h
      cases hrec : splitFirst pat cs with
      | none => rw [hrec] at h; exact absurd h (by simp)
      | some ab =>
        obtain ⟨a', b'⟩ := ab
        rw [hrec] at h
        injection h with h'
        injection h' with h1 h2
        subst h1; subst h2
        have := ih hrec
        simp [this]

theorem splitFirst_not_occ {pat : List Char} (hne : pat ≠ []) {s : List Char}
    (h : splitFirst pat s = none) :
    ∀ u v, s ≠ u ++ pat ++ v := by
  induction s with
  | nil =>
    intro u v he
    cases u with
    | nil =>
      cases pat with
      | nil => exact hne rfl
      | cons p ps => simp at he
    | cons x xs => simp at he
  | cons c cs ih =>
    intro u v he
    rw [splitFirst] at h
    by_cases hp : isPre pat (c :: cs) = true
    · rw [if_pos hp] at h; exact absurd h (by simp)
    · rw [if_neg hp] at h
      cases u with
      | nil =>
        simp only [List.nil_append] at he
        exact hp ((isPre_iff _ _).mpr ⟨v, he⟩)
      | cons x xs =>
        cases hrec : splitFirst pat cs with
        | none =>
          simp only [List.cons_append, List.cons.injEq] at he
          exact ih hrec xs v he.2
        | some ab => rw [hrec] at h; exact absurd h (by simp)

theorem splitFirst_none_of_no_occ {pat s : List Char}
    (h : ∀ u v, s ≠ u ++ pat ++ v) : splitFirst pat s = none := by
  cases hs : splitFirst pat s with
  | none => rfl
  | some ab => exact absurd (splitFirst_some_eq hs) (h ab.1 ab.2)

/-- If `pat` occurs in `x ++ y` starting strictly inside `x`, then either
`pat` occurs inside `x` entirely, or `pat` straddles the boundary: it splits
as `p ++ q` with `p` a nonempty suffix of `x` and `q` a nonempty initial
segment of `y`. -/
theorem early_occ_cases {pat x y a b : List Char}
    (h : a ++ pat ++ b = x ++ y) (hlt : a.length < x.length) :
    (∃ u v, x = u ++ pat ++ v) ∨
      ∃ p q, pat = p ++ q ∧ p ≠ [] ∧ q ≠ [] ∧ x = a ++ p ∧ ∃ b2, y = q ++ b2 := by
  have hle : a.length ≤ x.length := Nat.le_of_lt hlt
  -- `a` is an initial segment of `x`
  have hxa : x = a ++ x.drop a.length := by
    have h1 : (a ++ (pat ++ b)).take a.length = a := List.take_left' rfl
    rw [List.append_assoc] at h
    rw [h] at h1
    rw [List.take_append_eq_append_take, Nat.sub_eq_zero_of_le hle, List.take_zero,
      List.append_nil] at h1
    conv_lhs => rw [← List.take_append_drop a.length x]
    rw [h1]
  set x2 := x.drop a.length with hx2
  have hx2len : x2.length = x.length - a.length := by simp [hx2]
  have hx2ne : x2 ≠ [] := by
    intro hnil
    rw [hnil] at hx2len
    simp at hx2len
    omega
  have hmid : pat ++ b = x2 ++ y := by
    have := h
    rw [hxa] at this
    rw [List.append_assoc, List.append_assoc] at this
    exact List.append_cancel_left this
  by_cases hpl : pat.length ≤ x2.length
  · -- pat fits inside x2
    left
    have h1 : (pat ++ b).take pat.length = pat := List.take_left' rfl
    rw [hmid] at h1
    rw [List.take_append_eq_append_take, Nat.sub_eq_zero_of_le hpl, List.take_zero,
      List.append_nil] at h1
    refine ⟨a, x2.drop pat.length, ?_⟩
    rw [hxa]
    conv_lhs => rw [show x2 = x2.take pat.length ++ x2.drop pat.length from
      (List.take_append_drop _ _).symm]
    rw [h1, List.append_assoc]
  · -- pat straddles the boundary
    right
    have hxlt : x2.length < pat.length := Nat.lt_of_not_le hpl
    have h1 : (x2 ++ y).take x2.length = x2 := List.take_left' rfl
    rw [← hmid] at h1
    rw [List.take_append_eq_append_take, Nat.sub_eq_zero_of_le (Nat.le_of_lt hxlt),
      List.take_zero, List.append_nil] at h1
    have hpat : pat = x2 ++ pat.drop x2.length := by
      conv_lhs => rw [← List.take_append_drop x2.length pat]
      rw [h1]
    refine ⟨x2, pat.drop x2.length, hpat, hx2ne, ?_, hxa, ?_⟩
    · intro hnil
      have := congrArg List.length hnil
      simp at this
      omega
    · refine ⟨b, ?_⟩
      have := hmid
      conv_lhs at this => rw [hpat]
      rw [List.append_assoc] at this
      exact (List.append_cancel_left this).symm

/-- For a pattern with no nontrivial self-overlap, the absence of an
occurrence in `t` means any occurrence in `t ++ pat ++ …` starts at or after
position `t.length`. -/
theorem firstAt_of_no_occ {pat t : List Char}
    (hsof : ∀ i, i < pat.length → 0 < i → isPre (pat.drop i) pat = false)
    (hno : ∀ u v, t ≠ u ++ pat ++ v) :
    ∀ a b, a ++ pat ++ b = t ++ pat → t.length ≤ a.length := by
  intro a b h
  by_contra hcon
  have hlt : a.length < t.length := Nat.lt_of_not_le hcon
  rcases early_occ_cases h hlt with ⟨u, v, huv⟩ | ⟨p, q, hpq, hp, hq, _, b2, hb2⟩
  · exact hno u v huv
  · have hqlen : q.length = pat.length - p.length := by
      rw [hpq]; simp
    have hplen : 0 < p.length := List.length_pos.mpr hp
    have hqpos : 0 < q.length := List.length_pos.mpr hq
    have hplt : p.length < pat.length := by
      rw [hpq, List.length_append] at *
      omega
    have hdrop : pat.drop p.length = q := by
      rw [hpq, List.drop_left]
    have : isPre (pat.drop p.length) pat = true := by
      rw [hdrop]
      exact (isPre_iff _ _).mpr ⟨b2, hb2⟩
    rw [hsof p.length hplt hplen] at this
    exact absurd this (by simp)

/-- The first occurrence of a self-overlap-free pattern in `t ++ pat ++ z`,
when `t` contains none, is exactly at position `t.length`. -/
theorem splitFirst_first {pat : List Char} (hne : pat ≠ [])
    {t : List Char}
    (hfa : ∀ a b, a ++ pat ++ b = t ++ pat → t.length ≤ a.length)
    (z : List Char) : splitFirst pat (t ++ (pat ++ z)) = some (t, z) := by
  induction t with
  | nil =>
    cases pat with
    | nil => exact absurd rfl hne
    | cons p ps =>
      simp only [List.nil_append]
      rw [List.cons_append, splitFirst]
      have hp : isPre (p :: ps) (p :: (ps ++ z)) = true := by
        have := isPre_append (p :: ps) z
        rwa [List.cons_append] at this
      rw [if_pos hp, ← List.cons_append, List.drop_left' rfl]
  | cons c t' ih =>
    have hstep : (c :: t') ++ (pat ++ z) = c :: (t' ++ (pat ++ z)) := rfl
    rw [hstep, splitFirst]
    have hnp : isPre pat (c :: (t' ++ (pat ++ z))) = false := by
      by_contra hcon
      have hpre : isPre pat (c :: (t' ++ (pat ++ z))) = true := by
        cases hval : isPre pat (c :: (t' ++ (pat ++ z))) with
        | true => rfl
        | false => exact absurd hval hcon
      obtain ⟨u, hu⟩ := (isPre_iff _ _).mp hpre
      -- pat is an initial segment of (c :: t') ++ pat, i.e. an occurrence at 0
      have hlen : pat.length ≤ ((c :: t') ++ pat).length := by
        simp only [List.length_append, List.length_cons]
        omega
      have hall : c :: (t' ++ (pat ++ z)) = ((c :: t') ++ pat) ++ z := by
        simp [List.append_assoc]
      have htake : pat = ((c :: t') ++ pat).take pat.length := by
        have h1 : (pat ++ u).take pat.length = pat := List.take_left' rfl
        rw [← hu, hall, List.take_append_eq_append_take,
          Nat.sub_eq_zero_of_le hlen, List.take_zero, List.append_nil] at h1
        exact h1.symm
      have hocc : [] ++ pat ++ (((c :: t') ++ pat).drop pat.length) = (c :: t') ++ pat := by
        simp only [List.nil_append]
        conv_rhs => rw [← List.take_append_drop pat.length ((c :: t') ++ pat)]
        rw [← htake]
      have := hfa [] _ hocc
      simp at this
    rw [if_neg (by simp [hnp])]
    have hfa' : ∀ a b, a ++ pat ++ b = t' ++ pat → t'.length ≤ a.length := by
      intro a b hab
      have h2 : (c :: a) ++ pat ++ b = (c :: t') ++ pat := by
        simp only [List.cons_append]
        rw [hab]
      have := hfa (c :: a) b h2
      simpa using this
    rw [ih hfa']

/-! ## C1: paragraph wrapping (`wrap_paragraphs` in `generate_draft.py` and
`make_publish.py`) -/

def pOpen : List Char := ['<', 'p', '>']

def pClose : List Char := ['<', '/', 'p', '>']

/-- The fixed decorator markup prepended to each paragraph body by
`wrap_paragraphs` (and used verbatim for the article-credit paragraph in
`build_article_json`). -/
def decoOpen : List Char :=
  "<p class=\"NBAIEditor_Theme__paragraph\" dir=\"ltr\" style=\"text-align: start;\"><span>".toList

def decoClose : List Char := "</span></p>".toList

def decorate (inner : List Char) : List Char := decoOpen ++ inner ++ decoClose

/-- Fuelled worker for `wrapParagraphs`; fuel strictly exceeds the input
length, and each iteration consumes at least seven characters. -/
def wrapParaGo : Nat → List Char → List Char
  | 0, s => s
  | fuel + 1, s =>
    match splitFirst pOpen s with
    | none => s
    | some (pre, rest) =>
      match splitFirst pClose rest with
      | none => s
      | some (inner, rest2) => pre ++ decorate inner ++ wrapParaGo fuel rest2

/-- `wrap_paragraphs`: replace every (lazy, leftmost) `<p>…</p>` match by the
decorated paragraph block, leaving all other text unchanged. -/
def wrapParagraphs (s : List Char) : List Char := wrapParaGo (s.length + 1) s

/-- HTML text carved into the segments relevant to the paragraph regex: a
run of non-paragraph text, then a `<p>…</p>` paragraph, and so on, with a
trailing run of non-paragraph text. -/
inductive HtmlDoc where
  | tail (trailing : List Char)
  | para (before inner : List Char) (rest : HtmlDoc)

def renderDoc : HtmlDoc → List Char
  | .tail tr => tr
  | .para t i r => t ++ (pOpen ++ (i ++ (pClose ++ renderDoc r)))

def renderWrapped : HtmlDoc → List Char
  | .tail tr => tr
  | .para t i r => t ++ (decorate i ++ renderWrapped r)

def paraCount : HtmlDoc → Nat
  | .tail _ => 0
  | .para _ _ r => paraCount r + 1

/-- A document is well-formed when the text between and inside paragraphs
contains no paragraph tags: this is exactly what "HTML with N top-level
paragraphs" means for the regex. -/
def wfDoc : HtmlDoc → Prop
  | .tail tr => splitFirst pOpen tr = none
  | .para t i r =>
      splitFirst pOpen t = none ∧ splitFirst pOpen i = none ∧
      splitFirst pClose i = none ∧ wfDoc r

instance instDecWfDoc : (d : HtmlDoc) → Decidable (wfDoc d)
  | .tail _ => inferInstanceAs (Decidable (_ = _))
  | .para _ _ r =>
    haveI : Decidable (wfDoc r) := instDecWfDoc r
    inferInstanceAs (Decidable (_ ∧ _ ∧ _ ∧ _))

theorem pOpen_sof : ∀ i, i < pOpen.length → 0 < i → isPre (pOpen.drop i) pOpen = false := by
  decide

theorem pClose_sof : ∀ i, i < pClose.length → 0 < i → isPre (pClose.drop i) pClose = false := by
  decide

theorem wrapParaGo_doc (d : HtmlDoc) :
    ∀ fuel, (renderDoc d).length < fuel → wfDoc d →
      wrapParaGo fuel (renderDoc d) = renderWrapped d := by
  induction d with
  | tail tr =>
    intro fuel hf hw
    cases fuel with
    | zero => omega
    | succ n =>
      rw [renderDoc, wrapParaGo, hw]
      rfl
  | para t i r ih =>
    intro fuel hf hw
    obtain ⟨hw1, hw2, hw3, hw4⟩ := hw
    cases fuel with
    | zero => omega
    | succ n =>
      have e1 : splitFirst pOpen (t ++ (pOpen ++ (i ++ (pClose ++ renderDoc r)))) =
          some (t, i ++ (pClose ++ renderDoc r)) :=
        splitFirst_first (by decide)
          (firstAt_of_no_occ pOpen_sof (splitFirst_not_occ (by decide) hw1)) _
      have e2 : splitFirst pClose (i ++ (pClose ++ renderDoc r)) =
          some (i, renderDoc r) :=
        splitFirst_first (by decide)
          (firstAt_of_no_occ pClose_sof (splitFirst_not_occ (by decide) hw3)) _
      have hlen : (renderDoc r).length < n := by
        rw [renderDoc] at hf
        simp only [List.length_append, pOpen, pClose, List.length_cons,
          List.length_nil] at hf
        omega
      rw [renderDoc]
      simp only [wrapParaGo, e1, e2]
      rw [ih n hlen hw4, renderWrapped]
      simp [decorate, List.append_assoc]

/-- C1: for HTML text whose top-level structure is `N` paragraphs
`<p>inner</p>` separated by tag-free text, `wrap_paragraphs` produces exactly
the same text with each paragraph replaced, in order, by
`<p class="NBAIEditor_Theme__paragraph" dir="ltr" style="text-align: start;"><span>inner</span></p>`,
preserving each paragraph's inner markup and leaving all text outside the
paragraph tags unchanged. -/
theorem wrapParagraphs_decorates (d : HtmlDoc) (hw : wfDoc d) :
    wrapParagraphs (renderDoc d) = renderWrapped d :=
  wrapParaGo_doc d _ (Nat.lt_succ_self _) hw

def exDoc : HtmlDoc :=
  .para [] "one <em>two</em>".toList (.para ['\n'] "three".toList (.tail []))

theorem wrapParagraphs_decorates_witness :
    wfDoc exDoc ∧ paraCount exDoc = 2 ∧
      wrapParagraphs (renderDoc exDoc) = renderWrapped exDoc :=
  ⟨by decide, rfl, wrapParagraphs_decorates exDoc (by decide)⟩

/-! ## C2: credit stripping in `build_article_json` / `make_publish` -/

/-- The credit post-processing shared by `build_article_json`
(`generate_draft.py` lines 70-73 and 82-85) and `make_publish`
(`make_publish.py` lines 158-171): `raw = markdown(credit).strip()`, then
`raw = raw[3:-4]` whenever the stripped text starts with `<p>` and ends with
`</p>`.  The argument is the already-rendered `markdown` output. -/
def stripCredit (rendered : List Char) : List Char :=
  let t := pyStrip rendered
  if isPre pOpen t && endsW pClose t then (t.drop 3).take (t.length - 7) else t

/-- Fuelled worker counting the (lazy, leftmost) `<p>…</p>` matches. -/
def countParasGo : Nat → List Char → Nat
  | 0, _ => 0
  | fuel + 1, s =>
    match splitFirst pOpen s with
    | none => 0
    | some (_, rest) =>
      match splitFirst pClose rest with
      | none => 0
      | some (_, rest2) => countParasGo fuel rest2 + 1

/-- Number of `<p>…</p>` paragraphs contained in an HTML text. -/
def countParas (s : List Char) : Nat := countParasGo (s.length + 1) s

def twoParaCredit : List Char := "<p>a</p>\n<p>b</p>".toList

/-- C2 counterexample: a credit whose Markdown output consists of two
paragraphs (e.g. the credit `"a\n\nb"` rendering to
`<p>a</p>\n<p>b</p>`) is *not* used unstripped: the code removes the first
`<p>` and the last `</p>` because the string starts and ends with the tags,
contradicting the claim that multi-paragraph output is embedded exactly as
rendered. -/
theorem stripCredit_multi_para_counterexample :
    countParas twoParaCredit = 2 ∧ stripCredit twoParaCredit ≠ twoParaCredit ∧
      stripCredit twoParaCredit = "a</p>\n<p>b".toList := by
  decide

theorem dropWhile_eq_self {p : Char → Bool} {l : List Char}
    (h : ∀ c ∈ l.head?, p c = false) : l.dropWhile p = l := by
  cases l with
  | nil => rfl
  | cons c rest =>
    have := h c (by simp)
    simp [List.dropWhile_cons, this]

theorem pyStrip_eq_self {s : List Char} (hh : ∀ c ∈ s.head?, isSpc c = false)
    (hl : ∀ c ∈ s.reverse.head?, isSpc c = false) : pyStrip s = s := by
  unfold pyStrip
  rw [dropWhile_eq_self hh, dropWhile_eq_self hl, List.reverse_reverse]

/-- C2 (amended): the renderer strips the wrapping tags whenever the
(whitespace-trimmed) Markdown output starts with `<p>` and ends with
`</p>` — in particular a single wrapped paragraph is reduced to its inner
content — and uses the trimmed output unchanged only when that
start/end-tag test fails; the paragraph count plays no role. -/
theorem stripCredit_amended :
    (∀ inner : List Char, stripCredit (pOpen ++ inner ++ pClose) = inner) ∧
    (∀ rendered : List Char,
      (isPre pOpen (pyStrip rendered) && endsW pClose (pyStrip rendered)) = false →
        stripCredit rendered = pyStrip rendered) := by
  constructor
  · intro inner
    have hshape : pOpen ++ inner ++ pClose = '<' :: 'p' :: '>' :: (inner ++ pClose) := by
      simp [pOpen, List.append_assoc]
    have hrev : (pOpen ++ inner ++ pClose).reverse =
        '>' :: 'p' :: '/' :: '<' :: inner.reverse ++ pOpen.reverse := by
      simp [pClose, List.reverse_append]
    have hps : pyStrip (pOpen ++ inner ++ pClose) = pOpen ++ inner ++ pClose := by
      refine pyStrip_eq_self ?_ ?_
      · rw [hshape]; intro c hc; simp at hc; subst hc; decide
      · rw [hrev]; intro c hc; simp at hc; subst hc; decide
    have hpre : isPre pOpen (pOpen ++ inner ++ pClose) = true := by
      rw [List.append_assoc]; exact isPre_append _ _
    have hpost : endsW pClose (pOpen ++ inner ++ pClose) = true := by
      unfold endsW
      rw [List.reverse_append]
      exact isPre_append _ _
    simp only [stripCredit, hps, hpre, hpost, Bool.and_self, if_true]
    have hlen : (pOpen ++ inner ++ pClose).length - 7 = inner.length := by
      simp [pOpen, pClose]
    rw [hlen, List.append_assoc, List.drop_left' (show pOpen.length = 3 from rfl)]
    exact List.take_left' rfl
  · intro rendered h
    simp only [stripCredit, h, Bool.false_eq_true, if_false]

theorem stripCredit_amended_witness :
    stripCredit (pOpen ++ "by Ana".toList ++ pClose) = "by Ana".toList ∧
      stripCredit "plain credit".toList = pyStrip "plain credit".toList :=
  ⟨stripCredit_amended.1 _, stripCredit_amended.2 _ (by decide)⟩

/-! ## Decimal rendering: Python `str(n)` for a non-negative integer -/

def digitChar (n : Nat) : Char := Char.ofNat (48 + n)

def natDecGo : Nat → Nat → List Char
  | 0, _ => []
  | fuel + 1, n =>
    if n < 10 then [digitChar n] else natDecGo fuel (n / 10) ++ [digitChar (n % 10)]

def natDec (n : Nat) : List Char := natDecGo (n + 1) n

theorem natDecGo_fuel : ∀ f1 f2 n, n < f1 → n < f2 → natDecGo f1 n = natDecGo f2 n := by
  intro f1
  induction f1 with
  | zero => intro f2 n h1; omega
  | succ g1 ih =>
    intro f2 n h1 h2
    cases f2 with
    | zero => omega
    | succ g2 =>
      by_cases hn : n < 10
      · simp [natDecGo, hn]
      · simp only [natDecGo, if_neg hn]
        have hd : n / 10 < n := Nat.div_lt_self (by omega) (by omega)
        rw [ih g2 (n / 10) (by omega) (by omega)]

theorem natDec_low {n : Nat} (h : n < 10) : natDec n = [digitChar n] := by
  simp [natDec, natDecGo, h]

theorem natDec_high {n : Nat} (h : 10 ≤ n) :
    natDec n = natDec (n / 10) ++ [digitChar (n % 10)] := by
  have hd : n / 10 < n := Nat.div_lt_self (by omega) (by omega)
  rw [natDec, natDecGo, if_neg (by omega : ¬ n < 10),
    natDecGo_fuel n (n / 10 + 1) (n / 10) (by omega) (by omega), natDec]

theorem digitChar_isDigit {m : Nat} (h : m < 10) : (digitChar m).isDigit = true := by
  interval_cases m <;> decide

theorem digitChar_toNat {m : Nat} (h : m < 10) : (digitChar m).toNat = 48 + m := by
  interval_cases m <;> decide

theorem natDec_all_digits (n : Nat) : ∀ c ∈ natDec n, c.isDigit = true := by
  induction n using Nat.strong_induction_on with
  | _ n ih =>
    by_cases hn : n < 10
    · rw [natDec_low hn]
      intro c hc
      simp at hc
      subst hc
      exact digitChar_isDigit hn
    · rw [natDec_high (by omega)]
      intro c hc
      rw [List.mem_append] at hc
      rcases hc with hc | hc
      · exact ih (n / 10) (Nat.div_lt_self (by omega) (by omega)) c hc
      · simp at hc
        subst hc
        exact digitChar_isDigit (Nat.mod_lt _ (by omega))

theorem natDec_ne_nil (n : Nat) : natDec n ≠ [] := by
  by_cases hn : n < 10
  · rw [natDec_low hn]; simp
  · rw [natDec_high (by omega)]; simp

/-- Decimal evaluation, used to show `natDec` is injective. -/
def decVal (s : List Char) : Nat := s.foldl (fun a c => 10 * a + (c.toNat - 48)) 0

theorem decVal_go (n : Nat) :
    ∀ acc, (natDec n).foldl (fun a c => 10 * a + (c.toNat - 48)) acc =
      acc * 10 ^ (natDec n).length + n := by
  induction n using Nat.strong_induction_on with
  | _ n ih =>
    intro acc
    by_cases hn : n < 10
    · rw [natDec_low hn]
      simp [List.foldl, digitChar_toNat hn]
      ring
    · rw [natDec_high (by omega)]
      rw [List.foldl_append]
      rw [ih (n / 10) (Nat.div_lt_self (by omega) (by omega)) acc]
      simp only [List.foldl, List.length_append, List.length_cons, List.length_nil]
      rw [digitChar_toNat (Nat.mod_lt _ (by omega))]
      have : 48 + n % 10 - 48 = n % 10 := by omega
      rw [this, pow_succ]
      have hmod := Nat.div_add_mod n 10
      ring_nf
      omega

theorem decVal_natDec (n : Nat) : decVal (natDec n) = n := by
  have := decVal_go n 0
  simpa [decVal] using this

theorem natDec_inj {a b : Nat} (h : natDec a = natDec b) : a = b := by
  have := congrArg decVal h
  rwa [decVal_natDec, decVal_natDec] at this

theorem dash_not_mem_natDec (n : Nat) : '-' ∉ natDec n := by
  intro hmem
  have := natDec_all_digits n '-' hmem
  simp at this

/-- Lists equal around a separator absent from both left parts agree on both
sides of the separator. -/
theorem sep_unique {x1 y1 x2 y2 : List Char} {sep : Char}
    (h1 : sep ∉ x1) (h2 : sep ∉ x2)
    (he : x1 ++ sep :: y1 = x2 ++ sep :: y2) : x1 = x2 ∧ y1 = y2 := by
  induction x1 generalizing x2 with
  | nil =>
    cases x2 with
    | nil => simp at he; exact ⟨rfl, he⟩
    | cons c cs =>
      exfalso
      simp only [List.nil_append, List.cons_append, List.cons.injEq] at he
      obtain ⟨hc, -⟩ := he
      subst hc
      exact h2 (List.mem_cons_self _ _)
  | cons c cs ih =>
    cases x2 with
    | nil =>
      exfalso
      simp only [List.nil_append, List.cons_append, List.cons.injEq] at he
      obtain ⟨hc, -⟩ := he
      subst hc
      exact h1 (List.mem_cons_self _ _)
    | cons d ds =>
      simp only [List.cons_append, List.cons.injEq] at he
      obtain ⟨rfl, he2⟩ := he
      have := ih (fun hm => h1 (List.mem_cons_of_mem _ hm))
        (fun hm => h2 (List.mem_cons_of_mem _ hm)) he2
      exact ⟨by rw [this.1], this.2⟩

/-! ## JSON values -/

/-- JSON values as produced by `json.loads` (numbers restricted to the
integers, which is all this pipeline emits or inspects). -/
inductive JVal where
  | jnull
  | jbool (b : Bool)
  | jnum (n : Int)
  | jstr (s : List Char)
  | jarr (xs : List JVal)
  | jobj (kvs : List (List Char × JVal))

/-! ## C3: the image-metadata blob of `create_image_block` -/

/-- Lowercase hex digit (CPython's JSON encoder formats `\uXXXX` with
`%04x`). -/
def hexL (d : Nat) : Char := Char.ofNat (if d < 10 then 48 + d else 87 + d)

/-- Uppercase hex digit (`urllib.parse.quote` formats escapes with
`%02X`). -/
def hexU (d : Nat) : Char := Char.ofNat (if d < 10 then 48 + d else 55 + d)

def hexL4 (n : Nat) : List Char :=
  [hexL (n / 4096 % 16), hexL (n / 256 % 16), hexL (n / 16 % 16), hexL (n % 16)]

/-- Character escaping of CPython's `json.dumps` with the default
`ensure_ascii=True`: `"`, `\` and the short control escapes; `\uXXXX` for
the remaining control characters and all non-ASCII characters (a surrogate
pair for astral characters); every other ASCII character verbatim. -/
def jsonEscChar (c : Char) : List Char :=
  if c = '"' then ['\\', '"']
  else if c = '\\' then ['\\', '\\']
  else if c = '\n' then ['\\', 'n']
  else if c = '\r' then ['\\', 'r']
  else if c = '\t' then ['\\', 't']
  else if c = '\x08' then ['\\', 'b']
  else if c = '\x0c' then ['\\', 'f']
  else if c.toNat < 0x20 then '\\' :: 'u' :: hexL4 c.toNat
  else if c.toNat < 0x7f then [c]
  else if c.toNat < 0x10000 then '\\' :: 'u' :: hexL4 c.toNat
  else
    '\\' :: 'u' :: hexL4 (0xd800 + (c.toNat - 0x10000) / 0x400) ++
      ('\\' :: 'u' :: hexL4 (0xdc00 + (c.toNat - 0x10000) % 0x400))

def escBody (s : List Char) : List Char := (s.map jsonEscChar).flatten

/-- A JSON string literal as emitted by `json.dumps`. -/
def escString (s : List Char) : List Char := '"' :: escBody s ++ ['"']

/-- Scalar values appearing in the metadata dictionary. -/
inductive SVal where
  | sstr (s : List Char)
  | snat (n : Nat)

def renderSVal : SVal → List Char
  | .sstr s => escString s
  | .snat n => natDec n

def toJVal : SVal → JVal
  | .sstr s => .jstr s
  | .snat n => .jnum n

/-- One `"key": value` member as emitted by `json.dumps` (item separator
`': '`). -/
def renderMember (kv : List Char × SVal) : List Char :=
  escString kv.1 ++ ':' :: ' ' :: renderSVal kv.2

/-- The members of a dumped dictionary, joined by `', '`, insertion order
preserved. -/
def renderMembers : List (List Char × SVal) → List Char
  | [] => []
  | [kv] => renderMember kv
  | kv :: rest => renderMember kv ++ ',' :: ' ' :: renderMembers rest

/-- `json.dumps` of a string/int dictionary. -/
def renderObj (kvs : List (List Char × SVal)) : List Char :=
  Char.ofNat 123 :: renderMembers kvs ++ [Char.ofNat 125]

/-- The keys and values of `info_dict` in `create_image_block`, in
insertion order. -/
def infoKVs (imageUrl creditText : List Char) (w h : Nat) :
    List (List Char × SVal) :=
  [("type".toList, .sstr "editor-image-node".toList),
   ("imageUrl".toList, .sstr imageUrl),
   ("imageCaption".toList, .sstr []),
   ("creditText".toList, .sstr creditText),
   ("creditUrl".toList, .sstr []),
   ("imagePlatform".toList, .sstr "SELF_UPLOAD".toList),
   ("imageOriginalWidth".toList, .snat w),
   ("imageOriginalHeight".toList, .snat h)]

/-- `json.dumps(info_dict)`. -/
def dumpsInfo (imageUrl creditText : List Char) (w h : Nat) : List Char :=
  renderObj (infoKVs imageUrl creditText w h)

/-- UTF-8 encoding of one scalar value. -/
def utf8Bytes (c : Char) : List Nat :=
  let n := c.toNat
  if n < 0x80 then [n]
  else if n < 0x800 then [0xc0 + n / 64, 0x80 + n % 64]
  else if n < 0x10000 then [0xe0 + n / 4096, 0x80 + n / 64 % 64, 0x80 + n % 64]
  else [0xf0 + n / 0x40000, 0x80 + n / 4096 % 64, 0x80 + n / 64 % 64, 0x80 + n % 64]

/-- Bytes left untouched by `urllib.parse.quote` with the default
`safe='/'`: ALPHA, DIGIT, `_`, `.`, `-`, `~` and `/`. -/
def safeByte (b : Nat) : Bool :=
  (48 ≤ b && b ≤ 57) || (65 ≤ b && b ≤ 90) || (97 ≤ b && b ≤ 122) ||
    b == 95 || b == 46 || b == 45 || b == 126 || b == 47

def quoteByte (b : Nat) : List Char :=
  if safeByte b then [Char.ofNat b] else '%' :: hexU (b / 16) :: [hexU (b % 16)]

/-- `urllib.parse.quote(s)` with the default `safe='/'`: UTF-8 encode, then
percent-encode every unsafe byte with uppercase hex. -/
def pyQuote (s : List Char) : List Char :=
  (s.map (fun c => ((utf8Bytes c).map quoteByte).flatten)).flatten

def hexVal (c : Char) : Nat :=
  if 48 ≤ c.toNat && c.toNat ≤ 57 then c.toNat - 48
  else if 97 ≤ c.toNat && c.toNat ≤ 102 then c.toNat - 87
  else if 65 ≤ c.toNat && c.toNat ≤ 70 then c.toNat - 55
  else 0

def isHexD (c : Char) : Bool :=
  (48 ≤ c.toNat && c.toNat ≤ 57) || (97 ≤ c.toNat && c.toNat ≤ 102) ||
    (65 ≤ c.toNat && c.toNat ≤ 70)

/-- Percent-decoding (`urllib.parse.unquote`) on ASCII byte content, which
is all the encoder ever produces here: each valid `%XX` escape becomes the
byte `XX`, anything else passes through. -/
def percentDecode : List Char → List Char
  | [] => []
  | c :: h1 :: h2 :: rest2 =>
    if c = '%' && isHexD h1 && isHexD h2 then
      Char.ofNat (16 * hexVal h1 + hexVal h2) :: percentDecode rest2
    else c :: percentDecode (h1 :: h2 :: rest2)
  | c :: rest => c :: percentDecode rest

/-! ### Percent-encoding round trip -/

theorem hexU_isHexD {d : Nat} (h : d < 16) : isHexD (hexU d) = true := by
  interval_cases d <;> decide

theorem hexVal_hexU {d : Nat} (h : d < 16) : hexVal (hexU d) = d := by
  interval_cases d <;> decide

theorem hexL_isHexD {d : Nat} (h : d < 16) : isHexD (hexL d) = true := by
  interval_cases d <;> decide

theorem hexVal_hexL {d : Nat} (h : d < 16) : hexVal (hexL d) = d := by
  interval_cases d <;> decide

theorem toNat_ofNat_valid {n : Nat} (h : n.isValidChar) : (Char.ofNat n).toNat = n := by
  rw [Char.ofNat, dif_pos h]
  rfl

theorem pd_not_pct {c : Char} (hc : c ≠ '%') (rest : List Char) :
    percentDecode (c :: rest) = c :: percentDecode rest := by
  match rest with
  | [] => simp [percentDecode]
  | [h1] => simp [percentDecode]
  | h1 :: h2 :: rest2 => simp [percentDecode, hc]

theorem pd_escape {h1 h2 : Char} (hh1 : isHexD h1 = true) (hh2 : isHexD h2 = true)
    (rest2 : List Char) :
    percentDecode ('%' :: h1 :: h2 :: rest2) =
      Char.ofNat (16 * hexVal h1 + hexVal h2) :: percentDecode rest2 := by
  simp [percentDecode, hh1, hh2]

theorem pd_quoteByte {b : Nat} (hb : b < 128) (rest : List Char) :
    percentDecode (quoteByte b ++ rest) = Char.ofNat b :: percentDecode rest := by
  by_cases hs : safeByte b = true
  · rw [quoteByte, if_pos hs]
    have hne : Char.ofNat b ≠ '%' := by
      intro he
      have h37 : (Char.ofNat b).toNat = 37 := by rw [he]; rfl
      rw [toNat_ofNat_valid (Or.inl (by omega))] at h37
      rw [h37] at hs
      exact absurd hs (by decide)
    simpa using pd_not_pct hne rest
  · rw [quoteByte, if_neg hs]
    have h16 : b / 16 < 16 := by omega
    have hm : b % 16 < 16 := Nat.mod_lt _ (by omega)
    simp only [List.cons_append, List.nil_append]
    rw [pd_escape (hexU_isHexD h16) (hexU_isHexD hm), hexVal_hexU h16, hexVal_hexU hm]
    congr 2
    omega

theorem utf8Bytes_ascii {c : Char} (h : c.toNat < 128) : utf8Bytes c = [c.toNat] := by
  simp [utf8Bytes, h]

theorem percentDecode_pyQuote {s : List Char} (h : ∀ c ∈ s, c.toNat < 128) :
    percentDecode (pyQuote s) = s := by
  induction s with
  | nil => rfl
  | cons c cs ih =>
    have hc := h c (List.mem_cons_self _ _)
    have ih' := ih (fun x hx => h x (List.mem_cons_of_mem _ hx))
    simp only [pyQuote, List.map_cons, List.flatten_cons] at ih' ⊢
    rw [utf8Bytes_ascii hc]
    simp only [List.map_cons, List.map_nil, List.flatten_cons, List.flatten_nil,
      List.append_nil]
    rw [pd_quoteByte hc, Char.ofNat_toNat, ih']

/-! ### The dumped JSON is pure ASCII -/

theorem hexL_ascii {d : Nat} (h : d < 16) : (hexL d).toNat < 128 := by
  interval_cases d <;> decide

theorem hexL4_ascii (n : Nat) : ∀ x ∈ hexL4 n, x.toNat < 128 := by
  intro x hx
  simp only [hexL4, List.mem_cons, List.not_mem_nil, or_false] at hx
  rcases hx with rfl | rfl | rfl | rfl <;>
    exact hexL_ascii (Nat.mod_lt _ (by omega))

set_option maxHeartbeats 1000000 in
theorem jsonEscChar_ascii (c : Char) : ∀ x ∈ jsonEscChar c, x.toNat < 128 := by
  intro x hx
  unfold jsonEscChar at hx
  split_ifs at hx with h1 h2 h3 h4 h5 h6 h7 h8 h9 h10
  case _ => simp at hx; rcases hx with rfl | rfl <;> decide
  case _ => simp at hx; rcases hx with rfl | rfl <;> decide
  case _ => simp at hx; rcases hx with rfl | rfl <;> decide
  case _ => simp at hx; rcases hx with rfl | rfl <;> decide
  case _ => simp at hx; rcases hx with rfl | rfl <;> decide
  case _ => simp at hx; rcases hx with rfl | rfl <;> decide
  case _ => simp at hx; rcases hx with rfl | rfl <;> decide
  case _ =>
    simp only [List.mem_cons] at hx
    rcases hx with rfl | rfl | hx
    · decide
    · decide
    · exact hexL4_ascii _ x hx
  case _ =>
    simp at hx
    subst hx
    omega
  case _ =>
    simp only [List.mem_cons] at hx
    rcases hx with rfl | rfl | hx
    · decide
    · decide
    · exact hexL4_ascii _ x hx
  case _ =>
    simp only [List.cons_append, List.mem_cons, List.mem_append] at hx
    rcases hx with rfl | rfl | hx | rfl | rfl | hx
    · decide
    · decide
    · exact hexL4_ascii _ x hx
    · decide
    · decide
    · exact hexL4_ascii _ x hx

theorem escBody_ascii (s : List Char) : ∀ x ∈ escBody s, x.toNat < 128 := by
  intro x hx
  simp only [escBody, List.mem_flatten, List.mem_map] at hx
  obtain ⟨l, ⟨c, hc, rfl⟩, hxl⟩ := hx
  exact jsonEscChar_ascii c x hxl

theorem escString_ascii (s : List Char) : ∀ x ∈ escString s, x.toNat < 128 := by
  intro x hx
  have hx' : x ∈ '"' :: (escBody s ++ ['"']) := hx
  rcases List.mem_cons.mp hx' with rfl | hx2
  · decide
  · rcases List.mem_append.mp hx2 with hx3 | hx3
    · exact escBody_ascii s x hx3
    · simp at hx3; subst hx3; decide

theorem natDec_ascii (n : Nat) : ∀ x ∈ natDec n, x.toNat < 128 := by
  induction n using Nat.strong_induction_on with
  | _ n ih =>
    intro x hx
    by_cases hn : n < 10
    · rw [natDec_low hn] at hx
      simp only [List.mem_cons, List.not_mem_nil, or_false] at hx
      subst hx
      rw [digitChar_toNat hn]
      omega
    · rw [natDec_high (by omega)] at hx
      rw [List.mem_append] at hx
      rcases hx with hx | hx
      · exact ih (n / 10) (Nat.div_lt_self (by omega) (by omega)) x hx
      · simp only [List.mem_cons, List.not_mem_nil, or_false] at hx
        subst hx
        rw [digitChar_toNat (Nat.mod_lt _ (by omega))]
        have := Nat.mod_lt n (show 0 < 10 by omega)
        omega

theorem renderSVal_ascii (v : SVal) : ∀ x ∈ renderSVal v, x.toNat < 128 := by
  cases v with
  | sstr s => exact escString_ascii s
  | snat n => exact natDec_ascii n

theorem renderMember_ascii (kv : List Char × SVal) :
    ∀ x ∈ renderMember kv, x.toNat < 128 := by
  intro x hx
  simp only [renderMember, List.mem_append, List.mem_cons] at hx
  rcases hx with hx | rfl | rfl | hx
  · exact escString_ascii _ x hx
  · decide
  · decide
  · exact renderSVal_ascii _ x hx

theorem renderMembers_ascii (kvs : List (List Char × SVal)) :
    ∀ x ∈ renderMembers kvs, x.toNat < 128 := by
  induction kvs with
  | nil => intro x hx; simp [renderMembers] at hx
  | cons kv rest ih =>
    intro x hx
    cases rest with
    | nil => exact renderMember_ascii kv x hx
    | cons kv2 rest2 =>
      rw [show renderMembers (kv :: kv2 :: rest2) =
          renderMember kv ++ ',' :: ' ' :: renderMembers (kv2 :: rest2) from rfl] at hx
      simp only [List.mem_append, List.mem_cons] at hx
      rcases hx with hx | rfl | rfl | hx
      · exact renderMember_ascii kv x hx
      · decide
      · decide
      · exact ih x hx

theorem renderObj_ascii (kvs : List (List Char × SVal)) :
    ∀ x ∈ renderObj kvs, x.toNat < 128 := by
  intro x hx
  have hx' : x ∈ Char.ofNat 123 :: (renderMembers kvs ++ [Char.ofNat 125]) := hx
  rcases List.mem_cons.mp hx' with rfl | hx2
  · decide
  · rcases List.mem_append.mp hx2 with hx3 | hx3
    · exact renderMembers_ascii kvs x hx3
    · simp at hx3; subst hx3; decide

/-! ### A JSON decoder for the emitted fragment

`json.loads` is modelled for the grammar fragment `create_image_block`
produces: one object whose values are strings or non-negative integers,
with JSON whitespace, full escape handling (including surrogate pairs) and
an end-of-input check. -/

def jsonWs (c : Char) : Bool := c = ' ' || c = '\t' || c = '\n' || c = '\r'

def skipWs (s : List Char) : List Char := s.dropWhile jsonWs

def parseHex4 : List Char → Option (Nat × List Char)
  | a :: b :: c :: d :: rest =>
    if isHexD a && isHexD b && isHexD c && isHexD d then
      some (((hexVal a * 16 + hexVal b) * 16 + hexVal c) * 16 + hexVal d, rest)
    else none
  | _ => none

/-- Fuelled JSON string-body parser: consumes through the closing quote,
undoing the `json.dumps` escapes, recombining surrogate pairs. -/
def parseStrGo : Nat → List Char → Option (List Char × List Char)
  | 0, _ => none
  | _ + 1, [] => none
  | fuel + 1, c :: rest =>
    if c = '"' then some ([], rest)
    else if c = '\\' then
      match rest with
      | [] => none
      | e :: rest2 =>
        if e = '"' then (parseStrGo fuel rest2).map (fun p => ('"' :: p.1, p.2))
        else if e = '\\' then (parseStrGo fuel rest2).map (fun p => ('\\' :: p.1, p.2))
        else if e = '/' then (parseStrGo fuel rest2).map (fun p => ('/' :: p.1, p.2))
        else if e = 'n' then (parseStrGo fuel rest2).map (fun p => ('\n' :: p.1, p.2))
        else if e = 'r' then (parseStrGo fuel rest2).map (fun p => ('\r' :: p.1, p.2))
        else if e = 't' then (parseStrGo fuel rest2).map (fun p => ('\t' :: p.1, p.2))
        else if e = 'b' then (parseStrGo fuel rest2).map (fun p => ('\x08' :: p.1, p.2))
        else if e = 'f' then (parseStrGo fuel rest2).map (fun p => ('\x0c' :: p.1, p.2))
        else if e = 'u' then
          match parseHex4 rest2 with
          | none => none
          | some (n1, rest3) =>
            if 0xd800 ≤ n1 && n1 < 0xdc00 then
              match rest3 with
              | '\\' :: 'u' :: rest4 =>
                match parseHex4 rest4 with
                | none => none
                | some (n2, rest5) =>
                  if 0xdc00 ≤ n2 && n2 < 0xe000 then
                    (parseStrGo fuel rest5).map (fun p =>
                      (Char.ofNat (0x10000 + (n1 - 0xd800) * 0x400 + (n2 - 0xdc00)) :: p.1,
                        p.2))
                  else none
              | _ => none
            else if 0xdc00 ≤ n1 && n1 < 0xe000 then none
            else (parseStrGo fuel rest3).map (fun p => (Char.ofNat n1 :: p.1, p.2))
        else none
    else (parseStrGo fuel rest).map (fun p => (c :: p.1, p.2))

/-- Parser for a non-negative JSON integer (the only number shape emitted). -/
def parseNum (s : List Char) : Option (Nat × List Char) :=
  let ds := s.takeWhile Char.isDigit
  if ds.isEmpty then none
  else some (ds.foldl (fun a c => 10 * a + (c.toNat - 48)) 0, s.dropWhile Char.isDigit)

/-- Parser for a member value: a string literal or an integer. -/
def parseVal : List Char → Option (JVal × List Char)
  | '"' :: rest => (parseStrGo (rest.length + 1) rest).map (fun p => (JVal.jstr p.1, p.2))
  | c :: rest =>
    if c.isDigit then (parseNum (c :: rest)).map (fun p => (JVal.jnum p.1, p.2)) else none
  | [] => none

/-- Fuelled parser for a nonempty member list `"key": value, …`, stopping
before the closing brace. -/
def parseMembersGo : Nat → List Char → Option (List (List Char × JVal) × List Char)
  | 0, _ => none
  | fuel + 1, s =>
    match skipWs s with
    | '"' :: rest =>
      match parseStrGo (rest.length + 1) rest with
      | none => none
      | some (key, rest1) =>
        match skipWs rest1 with
        | ':' :: rest2 =>
          match parseVal (skipWs rest2) with
          | none => none
          | some (v, rest3) =>
            match skipWs rest3 with
            | ',' :: rest4 =>
              match parseMembersGo fuel rest4 with
              | none => none
              | some (kvs, rest5) => some ((key, v) :: kvs, rest5)
            | other => some ([(key, v)], other)
        | _ => none
    | _ => none

/-- `json.loads` on the emitted fragment: a single object of string/integer
members, requiring the input to be exhausted. -/
def jsonLoads (s : List Char) : Option JVal :=
  match skipWs s with
  | c :: rest =>
    if c = Char.ofNat 123 then
      match skipWs rest with
      | c2 :: rest2 =>
        if c2 = Char.ofNat 125 then
          if (skipWs rest2).isEmpty then some (JVal.jobj []) else none
        else
          match parseMembersGo (rest.length + 1) rest with
          | none => none
          | some (kvs, rem) =>
            match skipWs rem with
            | c3 :: rem2 =>
              if c3 = Char.ofNat 125 ∧ (skipWs rem2).isEmpty then
                some (JVal.jobj kvs)
              else none
            | [] => none
      | [] => none
    else none
  | [] => none

/-! ### Decoder round trip -/

theorem parseHex4_hexL4 {n : Nat} (h : n < 0x10000) (rest : List Char) :
    parseHex4 (hexL4 n ++ rest) = some (n, rest) := by
  have h1 : n / 4096 % 16 < 16 := Nat.mod_lt _ (by omega)
  have h2 : n / 256 % 16 < 16 := Nat.mod_lt _ (by omega)
  have h3 : n / 16 % 16 < 16 := Nat.mod_lt _ (by omega)
  have h4 : n % 16 < 16 := Nat.mod_lt _ (by omega)
  simp only [hexL4, List.cons_append, List.nil_append, parseHex4]
  rw [hexL_isHexD h1, hexL_isHexD h2, hexL_isHexD h3, hexL_isHexD h4]
  simp only [Bool.and_self, if_true]
  rw [hexVal_hexL h1, hexVal_hexL h2, hexVal_hexL h3, hexVal_hexL h4]
  have : ((n / 4096 % 16 * 16 + n / 256 % 16) * 16 + n / 16 % 16) * 16 + n % 16 = n := by
    omega
  rw [this]

theorem psg_quote (f : Nat) (rest : List Char) :
    parseStrGo (f + 1) ('"' :: rest) = some ([], rest) := by
  simp [parseStrGo]

theorem psg_plain {c : Char} (hq : c ≠ '"') (hb : c ≠ '\\') (f : Nat) (tail : List Char) :
    parseStrGo (f + 1) (c :: tail) = (parseStrGo f tail).map (fun p => (c :: p.1, p.2)) := by
  simp [parseStrGo, hq, hb]

theorem psg_esc_quote (f : Nat) (tail : List Char) :
    parseStrGo (f + 1) ('\\' :: '"' :: tail) =
      (parseStrGo f tail).map (fun p => ('"' :: p.1, p.2)) := by
  simp +decide [parseStrGo]

theorem psg_esc_back (f : Nat) (tail : List Char) :
    parseStrGo (f + 1) ('\\' :: '\\' :: tail) =
      (parseStrGo f tail).map (fun p => ('\\' :: p.1, p.2)) := by
  simp +decide [parseStrGo]

theorem psg_esc_n (f : Nat) (tail : List Char) :
    parseStrGo (f + 1) ('\\' :: 'n' :: tail) =
      (parseStrGo f tail).map (fun p => ('\n' :: p.1, p.2)) := by
  simp +decide [parseStrGo]

theorem psg_esc_r (f : Nat) (tail : List Char) :
    parseStrGo (f + 1) ('\\' :: 'r' :: tail) =
      (parseStrGo f tail).map (fun p => ('\r' :: p.1, p.2)) := by
  simp +decide [parseStrGo]

theorem psg_esc_t (f : Nat) (tail : List Char) :
    parseStrGo (f + 1) ('\\' :: 't' :: tail) =
      (parseStrGo f tail).map (fun p => ('\t' :: p.1, p.2)) := by
  simp +decide [parseStrGo]

theorem psg_esc_b (f : Nat) (tail : List Char) :
    parseStrGo (f + 1) ('\\' :: 'b' :: tail) =
      (parseStrGo f tail).map (fun p => ('\x08' :: p.1, p.2)) := by
  simp +decide [parseStrGo]

theorem psg_esc_f (f : Nat) (tail : List Char) :
    parseStrGo (f + 1) ('\\' :: 'f' :: tail) =
      (parseStrGo f tail).map (fun p => ('\x0c' :: p.1, p.2)) := by
  simp +decide [parseStrGo]

theorem psg_u {f n : Nat} (hn : n < 0x10000) (hns : ¬ (0xd800 ≤ n ∧ n < 0xe000))
    (tail : List Char) :
    parseStrGo (f + 1) ('\\' :: 'u' :: (hexL4 n ++ tail)) =
      (parseStrGo f tail).map (fun p => (Char.ofNat n :: p.1, p.2)) := by
  have hg1 : ¬ (0xd800 ≤ n ∧ n < 0xdc00) := by omega
  have hg2 : ¬ (0xdc00 ≤ n ∧ n < 0xe000) := by omega
  simp +decide [parseStrGo, parseHex4_hexL4 hn, hg1, hg2]

theorem psg_u_pair {f hi lo : Nat} (hhi1 : 0xd800 ≤ hi) (hhi2 : hi < 0xdc00)
    (hlo1 : 0xdc00 ≤ lo) (hlo2 : lo < 0xe000) (tail : List Char) :
    parseStrGo (f + 1)
      ('\\' :: 'u' :: (hexL4 hi ++ ('\\' :: 'u' :: (hexL4 lo ++ tail)))) =
      (parseStrGo f tail).map (fun p =>
        (Char.ofNat (0x10000 + (hi - 0xd800) * 0x400 + (lo - 0xdc00)) :: p.1, p.2)) := by
  have hhi : hi < 0x10000 := by omega
  have hlo' : lo < 0x10000 := by omega
  simp +decide [parseStrGo, parseHex4_hexL4 hhi, parseHex4_hexL4 hlo', hhi1, hhi2,
    hlo1, hlo2]

set_option maxHeartbeats 1000000 in
theorem jsonEscChar_length_pos (c : Char) : 0 < (jsonEscChar c).length := by
  unfold jsonEscChar
  split_ifs <;> simp [hexL4]

theorem escBody_length_ge (s : List Char) : s.length ≤ (escBody s).length := by
  induction s with
  | nil => simp [escBody]
  | cons c cs ih =>
    simp only [escBody, List.map_cons, List.flatten_cons, List.length_append,
      List.length_cons]
    have := jsonEscChar_length_pos c
    simp only [escBody] at ih
    omega

theorem parseStrGo_round (s : List Char) :
    ∀ fuel rest, s.length < fuel →
      parseStrGo fuel (escBody s ++ '"' :: rest) = some (s, rest) := by
  induction s with
  | nil =>
    intro fuel rest hf
    cases fuel with
    | zero => omega
    | succ f =>
      rw [show escBody [] = [] from rfl, List.nil_append, psg_quote]
  | cons c cs ih =>
    intro fuel rest hf
    cases fuel with
    | zero => omega
    | succ f =>
      have hIH : parseStrGo f (escBody cs ++ '"' :: rest) = some (cs, rest) :=
        ih f rest (by simp only [List.length_cons] at hf; omega)
      have hesc : escBody (c :: cs) ++ '"' :: rest =
          jsonEscChar c ++ (escBody cs ++ '"' :: rest) := by
        simp [escBody, List.append_assoc]
      rw [hesc]
      have hval : c.toNat < 0xd800 ∨ (0xdfff < c.toNat ∧ c.toNat < 0x110000) := c.valid
      by_cases h1 : c = '"'
      · subst h1
        rw [show jsonEscChar '"' = ['\\', '"'] from rfl]
        rw [show (['\\', '"'] : List Char) ++ (escBody cs ++ '"' :: rest) =
          '\\' :: '"' :: (escBody cs ++ '"' :: rest) from rfl]
        rw [psg_esc_quote, hIH]
        rfl
      · by_cases h2 : c = '\\'
        · subst h2
          rw [show jsonEscChar '\\' = ['\\', '\\'] from rfl]
          rw [show (['\\', '\\'] : List Char) ++ (escBody cs ++ '"' :: rest) =
            '\\' :: '\\' :: (escBody cs ++ '"' :: rest) from rfl]
          rw [psg_esc_back, hIH]
          rfl
        · by_cases h3 : c = '\n'
          · subst h3
            rw [show jsonEscChar '\n' = ['\\', 'n'] from rfl]
            rw [show (['\\', 'n'] : List Char) ++ (escBody cs ++ '"' :: rest) =
              '\\' :: 'n' :: (escBody cs ++ '"' :: rest) from rfl]
            rw [psg_esc_n, hIH]
            rfl
          · by_cases h4 : c = '\r'
            · subst h4
              rw [show jsonEscChar '\r' = ['\\', 'r'] from rfl]
              rw [show (['\\', 'r'] : List Char) ++ (escBody cs ++ '"' :: rest) =
                '\\' :: 'r' :: (escBody cs ++ '"' :: rest) from rfl]
              rw [psg_esc_r, hIH]
              rfl
            · by_cases h5 : c = '\t'
              · subst h5
                rw [show jsonEscChar '\t' = ['\\', 't'] from rfl]
                rw [show (['\\', 't'] : List Char) ++ (escBody cs ++ '"' :: rest) =
                  '\\' :: 't' :: (escBody cs ++ '"' :: rest) from rfl]
                rw [psg_esc_t, hIH]
                rfl
              · by_cases h6 : c = '\x08'
                · subst h6
                  rw [show jsonEscChar '\x08' = ['\\', 'b'] from rfl]
                  rw [show (['\\', 'b'] : List Char) ++ (escBody cs ++ '"' :: rest) =
                    '\\' :: 'b' :: (escBody cs ++ '"' :: rest) from rfl]
                  rw [psg_esc_b, hIH]
                  rfl
                · by_cases h7 : c = '\x0c'
                  · subst h7
                    rw [show jsonEscChar '\x0c' = ['\\', 'f'] from rfl]
                    rw [show (['\\', 'f'] : List Char) ++ (escBody cs ++ '"' :: rest) =
                      '\\' :: 'f' :: (escBody cs ++ '"' :: rest) from rfl]
                    rw [psg_esc_f, hIH]
                    rfl
                  · by_cases h8 : c.toNat < 0x20
                    · have he : jsonEscChar c = '\\' :: 'u' :: hexL4 c.toNat := by
                        unfold jsonEscChar
                        rw [if_neg h1, if_neg h2, if_neg h3, if_neg h4, if_neg h5,
                          if_neg h6, if_neg h7, if_pos h8]
                      rw [he]
                      rw [show ('\\' :: 'u' :: hexL4 c.toNat) ++ (escBody cs ++ '"' :: rest) =
                        '\\' :: 'u' :: (hexL4 c.toNat ++ (escBody cs ++ '"' :: rest)) by
                        simp [List.cons_append]]
                      rw [psg_u (by omega) (by omega), hIH, Char.ofNat_toNat]
                      rfl
                    · by_cases h9 : c.toNat < 0x7f
                      · have he : jsonEscChar c = [c] := by
                          unfold jsonEscChar
                          rw [if_neg h1, if_neg h2, if_neg h3, if_neg h4, if_neg h5,
                            if_neg h6, if_neg h7, if_neg h8, if_pos h9]
                        rw [he]
                        rw [show ([c] : List Char) ++ (escBody cs ++ '"' :: rest) =
                          c :: (escBody cs ++ '"' :: rest) from rfl]
                        rw [psg_plain h1 h2, hIH]
                        rfl
                      · by_cases h10 : c.toNat < 0x10000
                        · have he : jsonEscChar c = '\\' :: 'u' :: hexL4 c.toNat := by
                            unfold jsonEscChar
                            rw [if_neg h1, if_neg h2, if_neg h3, if_neg h4, if_neg h5,
                              if_neg h6, if_neg h7, if_neg h8, if_neg h9, if_pos h10]
                          rw [he]
                          rw [show ('\\' :: 'u' :: hexL4 c.toNat) ++ (escBody cs ++ '"' :: rest) =
                            '\\' :: 'u' :: (hexL4 c.toNat ++ (escBody cs ++ '"' :: rest)) by
                            simp [List.cons_append]]
                          have hns : ¬ (0xd800 ≤ c.toNat ∧ c.toNat < 0xe000) := by
                            rcases hval with hv | hv <;> omega
                          rw [psg_u h10 hns, hIH, Char.ofNat_toNat]
                          rfl
                        · have he : jsonEscChar c =
                              '\\' :: 'u' :: hexL4 (0xd800 + (c.toNat - 0x10000) / 0x400) ++
                                ('\\' :: 'u' :: hexL4 (0xdc00 + (c.toNat - 0x10000) % 0x400)) := by
                            unfold jsonEscChar
                            rw [if_neg h1, if_neg h2, if_neg h3, if_neg h4, if_neg h5,
                              if_neg h6, if_neg h7, if_neg h8, if_neg h9, if_neg h10]
                          rw [he]
                          have hlt : c.toNat < 0x110000 := by
                            rcases hval with hv | hv <;> omega
                          have hmod := Nat.mod_lt (c.toNat - 0x10000) (show 0 < 0x400 by omega)
                          have hdiv : (c.toNat - 0x10000) / 0x400 < 0x400 := by
                            apply Nat.div_lt_of_lt_mul
                            omega
                          rw [show ('\\' :: 'u' :: hexL4 (0xd800 + (c.toNat - 0x10000) / 0x400) ++
                              ('\\' :: 'u' :: hexL4 (0xdc00 + (c.toNat - 0x10000) % 0x400))) ++
                              (escBody cs ++ '"' :: rest) =
                            '\\' :: 'u' :: (hexL4 (0xd800 + (c.toNat - 0x10000) / 0x400) ++
                              ('\\' :: 'u' :: (hexL4 (0xdc00 + (c.toNat - 0x10000) % 0x400) ++
                                (escBody cs ++ '"' :: rest)))) by
                            simp [List.cons_append, List.append_assoc]]
                          rw [psg_u_pair (by omega) (by omega) (by omega) (by omega), hIH]
                          have hv2 : 0x10000 + (0xd800 + (c.toNat - 0x10000) / 0x400 - 0xd800) * 0x400 +
                              (0xdc00 + (c.toNat - 0x10000) % 0x400 - 0xdc00) = c.toNat := by
                            have := Nat.div_add_mod (c.toNat - 0x10000) 0x400
                            omega
                          simp only [hv2, Char.ofNat_toNat]
                          rfl

theorem takeWhile_all_append {p : Char → Bool} {xs rest : List Char}
    (hall : ∀ x ∈ xs, p x = true) (hre : ∀ c ∈ rest.head?, p c = false) :
    (xs ++ rest).takeWhile p = xs ∧ (xs ++ rest).dropWhile p = rest := by
  induction xs with
  | nil =>
    simp only [List.nil_append]
    refine ⟨?_, dropWhile_eq_self hre⟩
    cases rest with
    | nil => rfl
    | cons c cs => simp [List.takeWhile_cons, hre c (by simp)]
  | cons x xs ih =>
    have hx := hall x (List.mem_cons_self _ _)
    have ih' := ih (fun y hy => hall y (List.mem_cons_of_mem _ hy))
    simp only [List.cons_append, List.takeWhile_cons, List.dropWhile_cons, hx,
      if_true]
    exact ⟨by rw [ih'.1], by rw [ih'.2]⟩

theorem parseNum_natDec (n : Nat) {rest : List Char}
    (hre : ∀ c ∈ rest.head?, c.isDigit = false) :
    parseNum (natDec n ++ rest) = some (n, rest) := by
  obtain ⟨ht, hd⟩ := takeWhile_all_append (natDec_all_digits n) hre
  have hemp : (natDec n).isEmpty = false := by
    cases hnd : natDec n with
    | nil => exact absurd hnd (natDec_ne_nil n)
    | cons a l => rfl
  simp only [parseNum, ht, hd, hemp, Bool.false_eq_true, if_false]
  have hval := decVal_natDec n
  simp only [decVal] at hval
  rw [hval]

theorem isDigit_not_ws {c : Char} (hd : c.isDigit = true) : jsonWs c = false := by
  cases hjw : jsonWs c with
  | false => rfl
  | true =>
    simp only [jsonWs, Bool.or_eq_true, decide_eq_true_eq] at hjw
    rcases hjw with ((rfl | rfl) | rfl) | rfl <;> exact absurd hd (by decide)

theorem isDigit_ne_quote {c : Char} (hd : c.isDigit = true) : c ≠ '"' := by
  intro h
  subst h
  exact absurd hd (by decide)

theorem skipWs_quote (X : List Char) : skipWs ('"' :: X) = '"' :: X := by
  simp +decide [skipWs, List.dropWhile_cons, jsonWs]

theorem skipWs_colon (X : List Char) : skipWs (':' :: X) = ':' :: X := by
  simp +decide [skipWs, List.dropWhile_cons, jsonWs]

theorem skipWs_comma (X : List Char) : skipWs (',' :: X) = ',' :: X := by
  simp +decide [skipWs, List.dropWhile_cons, jsonWs]

theorem skipWs_space (X : List Char) : skipWs (' ' :: X) = skipWs X := by
  simp +decide [skipWs, List.dropWhile_cons, jsonWs]

theorem skipWs_not_ws {s : List Char} (h : ∀ c ∈ s.head?, jsonWs c = false) :
    skipWs s = s := dropWhile_eq_self h

theorem parseVal_str (s tail : List Char) :
    parseVal (escString s ++ tail) = some (JVal.jstr s, tail) := by
  have hshape : escString s ++ tail = '"' :: (escBody s ++ '"' :: tail) := by
    simp [escString, List.append_assoc]
  rw [hshape]
  rw [show parseVal ('"' :: (escBody s ++ '"' :: tail)) =
    (parseStrGo ((escBody s ++ '"' :: tail).length + 1) (escBody s ++ '"' :: tail)).map
      (fun p => (JVal.jstr p.1, p.2)) from rfl]
  rw [parseStrGo_round s _ tail (by
    have := escBody_length_ge s
    simp only [List.length_append, List.length_cons]
    omega)]
  rfl

theorem parseVal_cons_notquote {c : Char} (hc : c ≠ '"') (rest : List Char) :
    parseVal (c :: rest) =
      (if c.isDigit then (parseNum (c :: rest)).map (fun p => (JVal.jnum p.1, p.2))
        else none) := by
  simp [parseVal, hc]

theorem natDec_head (n : Nat) : ∃ m, m < 10 ∧ (natDec n).head? = some (digitChar m) := by
  induction n using Nat.strong_induction_on with
  | _ n ih =>
    by_cases hn : n < 10
    · exact ⟨n, hn, by rw [natDec_low hn]; rfl⟩
    · obtain ⟨m, hm, hh⟩ := ih (n / 10) (Nat.div_lt_self (by omega) (by omega))
      refine ⟨m, hm, ?_⟩
      rw [natDec_high (by omega)]
      cases hnd : natDec (n / 10) with
      | nil => exact absurd hnd (natDec_ne_nil _)
      | cons a l =>
        rw [hnd] at hh
        simpa using hh

theorem parseVal_num (n : Nat) {tail : List Char}
    (hre : ∀ c ∈ tail.head?, c.isDigit = false) :
    parseVal (natDec n ++ tail) = some (JVal.jnum n, tail) := by
  obtain ⟨m, hm, hh⟩ := natDec_head n
  cases hnd : natDec n with
  | nil => exact absurd hnd (natDec_ne_nil n)
  | cons d ds =>
    rw [hnd] at hh
    simp only [List.head?_cons, Option.some.injEq] at hh
    have hdig : d.isDigit = true := by rw [hh]; exact digitChar_isDigit hm
    rw [List.cons_append, parseVal_cons_notquote (isDigit_ne_quote hdig), if_pos hdig,
      ← List.cons_append, ← hnd, parseNum_natDec n hre]
    rfl

theorem renderSVal_head_not_ws (v : SVal) (TAIL : List Char) :
    ∀ c ∈ (renderSVal v ++ TAIL).head?, jsonWs c = false := by
  cases v with
  | sstr s =>
    intro c hc
    have hsh : renderSVal (SVal.sstr s) ++ TAIL = '"' :: ((escBody s ++ ['"']) ++ TAIL) := rfl
    rw [hsh] at hc
    simp at hc
    subst hc
    decide
  | snat n =>
    intro c hc
    obtain ⟨m, hm, hh⟩ := natDec_head n
    cases hnd : natDec n with
    | nil => exact absurd hnd (natDec_ne_nil n)
    | cons d ds =>
      rw [hnd] at hh
      simp only [List.head?_cons, Option.some.injEq] at hh
      have hsh : renderSVal (SVal.snat n) ++ TAIL = d :: (ds ++ TAIL) := by
        simp [renderSVal, hnd]
      rw [hsh] at hc
      simp at hc
      subst hc
      have hd2 : d.isDigit = true := by rw [hh]; exact digitChar_isDigit hm
      exact isDigit_not_ws hd2

theorem parseMembersGo_space (f : Nat) (X : List Char) :
    parseMembersGo f (' ' :: X) = parseMembersGo f X := by
  cases f with
  | zero => rfl
  | succ g => simp only [parseMembersGo, skipWs_space]

theorem parseMembersGo_member (k : List Char) (v : SVal) (f : Nat) (TAIL : List Char)
    (hdig : ∀ c ∈ TAIL.head?, c.isDigit = false) :
    parseMembersGo (f + 1) (renderMember (k, v) ++ TAIL) =
      (match skipWs TAIL with
       | ',' :: rest4 =>
         (match parseMembersGo f rest4 with
          | none => none
          | some (kvs, rest5) => some ((k, toJVal v) :: kvs, rest5))
       | other => some ([(k, toJVal v)], other)) := by
  have hshape : renderMember (k, v) ++ TAIL =
      '"' :: (escBody k ++ '"' :: (':' :: ' ' :: (renderSVal v ++ TAIL))) := by
    simp [renderMember, escString, List.append_assoc]
  have hkey : parseStrGo
      ((escBody k ++ '"' :: (':' :: ' ' :: (renderSVal v ++ TAIL))).length + 1)
      (escBody k ++ '"' :: (':' :: ' ' :: (renderSVal v ++ TAIL))) =
      some (k, ':' :: ' ' :: (renderSVal v ++ TAIL)) := by
    apply parseStrGo_round
    have := escBody_length_ge k
    simp only [List.length_append, List.length_cons]
    omega
  have hws : skipWs (renderSVal v ++ TAIL) = renderSVal v ++ TAIL :=
    skipWs_not_ws (renderSVal_head_not_ws v TAIL)
  have hv : parseVal (renderSVal v ++ TAIL) = some (toJVal v, TAIL) := by
    cases v with
    | sstr s => exact parseVal_str s TAIL
    | snat n => exact parseVal_num n hdig
  rw [hshape]
  simp only [parseMembersGo, skipWs_quote, hkey, skipWs_colon, skipWs_space, hws, hv]

theorem parseMembersGo_round (kvs : List (List Char × SVal)) (hne : kvs ≠ []) :
    ∀ f rest, kvs.length < f →
      parseMembersGo f (renderMembers kvs ++ Char.ofNat 125 :: rest) =
        some (kvs.map (fun kv => (kv.1, toJVal kv.2)), Char.ofNat 125 :: rest) := by
  induction kvs with
  | nil => exact absurd rfl hne
  | cons kv kvs' ih =>
    intro f rest hf
    cases f with
    | zero => omega
    | succ f' =>
      obtain ⟨k, v⟩ := kv
      cases kvs' with
      | nil =>
        rw [show renderMembers [(k, v)] = renderMember (k, v) from rfl]
        rw [parseMembersGo_member k v f' _ (by
          intro c hc
          simp at hc
          subst hc
          decide)]
        rw [skipWs_not_ws (by
          intro c hc
          simp at hc
          subst hc
          decide)]
        split
        · next rest4 heq =>
          exfalso
          injection heq with hc1 hc2
          exact absurd hc1 (by decide)
        · simp
      | cons kv2 kvs'' =>
        rw [show renderMembers ((k, v) :: kv2 :: kvs'') ++ Char.ofNat 125 :: rest =
          renderMember (k, v) ++
            (',' :: ' ' :: (renderMembers (kv2 :: kvs'') ++ Char.ofNat 125 :: rest)) by
          rw [show renderMembers ((k, v) :: kv2 :: kvs'') =
            renderMember (k, v) ++ ',' :: ' ' :: renderMembers (kv2 :: kvs'') from rfl]
          simp [List.append_assoc]]
        rw [parseMembersGo_member k v f' _ (by intro c hc; simp at hc; subst hc; decide)]
        rw [skipWs_comma]
        have hih := ih (by simp) f' rest (by simp at hf ⊢; omega)
        simp only [parseMembersGo_space, hih, List.map_cons]

theorem renderMember_length_pos (kv : List Char × SVal) : 0 < (renderMember kv).length := by
  obtain ⟨k, v⟩ := kv
  simp [renderMember, escString]

theorem renderMembers_length_ge (kvs : List (List Char × SVal)) :
    kvs.length ≤ (renderMembers kvs).length := by
  induction kvs with
  | nil => simp [renderMembers]
  | cons kv kvs' ih =>
    cases kvs' with
    | nil =>
      rw [show renderMembers [kv] = renderMember kv from rfl]
      have := renderMember_length_pos kv
      simpa using this
    | cons kv2 kvs'' =>
      rw [show renderMembers (kv :: kv2 :: kvs'') =
        renderMember kv ++ ',' :: ' ' :: renderMembers (kv2 :: kvs'') from rfl]
      have := renderMember_length_pos kv
      simp only [List.length_append, List.length_cons] at *
      omega

theorem skipWs_lbrace (X : List Char) :
    skipWs (Char.ofNat 123 :: X) = Char.ofNat 123 :: X := by
  simp +decide [skipWs, List.dropWhile_cons, jsonWs]

theorem skipWs_rbrace (X : List Char) :
    skipWs (Char.ofNat 125 :: X) = Char.ofNat 125 :: X := by
  simp +decide [skipWs, List.dropWhile_cons, jsonWs]

theorem jsonLoads_renderObj (kvs : List (List Char × SVal)) (hne : kvs ≠ []) :
    jsonLoads (renderObj kvs) =
      some (JVal.jobj (kvs.map (fun kv => (kv.1, toJVal kv.2)))) := by
  obtain ⟨kv0, kvs0, rfl⟩ : ∃ a l, kvs = a :: l := by
    cases kvs with
    | nil => exact absurd rfl hne
    | cons a l => exact ⟨a, l, rfl⟩
  obtain ⟨k, v⟩ := kv0
  have hX : ∃ X, renderMembers ((k, v) :: kvs0) = '"' :: X := by
    cases kvs0 with
    | nil => exact ⟨_, rfl⟩
    | cons b l => exact ⟨_, rfl⟩
  obtain ⟨X, hX⟩ := hX
  have hpm : parseMembersGo (X.length + 1 + 1 + 1) ('"' :: (X ++ [Char.ofNat 125])) =
      some (((k, v) :: kvs0).map (fun kv => (kv.1, toJVal kv.2)), [Char.ofNat 125]) := by
    have h0 := parseMembersGo_round ((k, v) :: kvs0) (by simp)
      (X.length + 1 + 1 + 1) [] (by
        have h1 := renderMembers_length_ge ((k, v) :: kvs0)
        rw [hX] at h1
        simp only [List.length_cons] at h1 ⊢
        omega)
    rw [hX] at h0
    simpa [List.cons_append] using h0
  rw [show renderObj ((k, v) :: kvs0) =
    Char.ofNat 123 :: (renderMembers ((k, v) :: kvs0) ++ [Char.ofNat 125]) from rfl]
  rw [hX, List.cons_append]
  simp +decide [jsonLoads, skipWs_lbrace, skipWs_quote, skipWs_rbrace, hpm, skipWs]

/-! ### C3 assembly: `create_image_block` -/

/-- The percent-encoded metadata blob `info_str` with explicit dimensions,
as computed by `create_image_block` in `helpers/put_request.py` (whose
default dimensions are 1500×993). -/
def imageInfoStrWH (imageUrl creditText : List Char) (w h : Nat) : List Char :=
  pyQuote (dumpsInfo imageUrl creditText w h)

/-- `info_str` as computed by the `create_image_block` copies in
`generate_draft.py` and `make_publish.py`, whose `info_dict` fixes
`imageOriginalWidth = 1500` and `imageOriginalHeight = 1000`. -/
def imageInfoStr (imageUrl creditText : List Char) : List Char :=
  imageInfoStrWH imageUrl creditText 1500 1000

/-- The image-block HTML of `create_image_block`
(`helpers/put_request.py`, parametrised in width/height; byte-identical to
the `generate_draft.py`/`make_publish.py` copies once the dimensions are
substituted). -/
def createImageBlockWH (imageUrl creditText : List Char) (w h : Nat) : List Char :=
  "<figure><div data-editornodeinfo=\"".toList ++
    imageInfoStrWH imageUrl creditText w h ++
    "\"><div class=\"editor-image-wrap\"><div class=\"editor-image\"><img class=\"\" src=\"".toList ++
    imageUrl ++
    "\" data-image-caption=\"\" data-credit-text=\"".toList ++ creditText ++
    "\" data-credit-url=\"\" data-image-platform=\"SELF_UPLOAD\" data-image-original-width=\"".toList ++
    natDec w ++
    "\" data-image-original-height=\"".toList ++ natDec h ++
    "\"></div><span class=\"image-introduction-wrap\"><span class=\"photo-by\">Photo by</span><span class=\"credit-text\">".toList ++
    creditText ++
    "</span></span></div></div></figure>".toList

/-- `create_image_block` of `generate_draft.py` / `make_publish.py`: the
same template with the dimensions fixed at 1500×1000 (the two files carry
byte-identical copies). -/
def createImageBlock (imageUrl creditText : List Char) : List Char :=
  createImageBlockWH imageUrl creditText 1500 1000

/-- The metadata object `info_dict` of `create_image_block` as a JSON
value. -/
def imageNodeInfo (imageUrl creditText : List Char) (w h : Nat) : JVal :=
  JVal.jobj [("type".toList, JVal.jstr "editor-image-node".toList),
    ("imageUrl".toList, JVal.jstr imageUrl),
    ("imageCaption".toList, JVal.jstr []),
    ("creditText".toList, JVal.jstr creditText),
    ("creditUrl".toList, JVal.jstr []),
    ("imagePlatform".toList, JVal.jstr "SELF_UPLOAD".toList),
    ("imageOriginalWidth".toList, JVal.jnum (w : Int)),
    ("imageOriginalHeight".toList, JVal.jnum (h : Int))]

/-- C3: percent-decoding and JSON-parsing the `data-editornodeinfo`
attribute value produced by `create_image_block` reconstructs exactly the
supplied metadata object — `type = "editor-image-node"`, the supplied image
URL and credit text, empty caption and credit URL,
`imagePlatform = "SELF_UPLOAD"` and the supplied dimensions — and on the
draft (`generate_draft.py`) and publish (`make_publish.py`) paths the
dimensions are 1500×1000. -/
theorem create_image_block_metadata_roundtrip
    (imageUrl creditText : List Char) (w h : Nat) :
    jsonLoads (percentDecode (imageInfoStrWH imageUrl creditText w h)) =
      some (imageNodeInfo imageUrl creditText w h) ∧
    jsonLoads (percentDecode (imageInfoStr imageUrl creditText)) =
      some (imageNodeInfo imageUrl creditText 1500 1000) := by
  have key : ∀ (u c : List Char) (a b : Nat),
      jsonLoads (percentDecode (imageInfoStrWH u c a b)) =
        some (imageNodeInfo u c a b) := by
    intro u c a b
    have hdec : percentDecode (pyQuote (dumpsInfo u c a b)) = dumpsInfo u c a b :=
      percentDecode_pyQuote (renderObj_ascii (infoKVs u c a b))
    rw [imageInfoStrWH, hdec, dumpsInfo, jsonLoads_renderObj _ (by simp [infoKVs])]
    simp [infoKVs, imageNodeInfo, toJVal]
  exact ⟨key imageUrl creditText w h, key imageUrl creditText 1500 1000⟩

/-- The fixed CSS `style_block` appended verbatim by `build_article_json`
(`generate_draft.py` lines 96-161) and `make_publish` (`make_publish.py`
lines 182-247); the two source copies are byte-identical. -/
def styleBlock : List Char :=
  "<style style=\"display: none\">.NBAIEditor_Theme__ol1 \x7bpadding: 0 0 0 20px !important;m".toList ++
    "argin: 0 0 24px 0 !important;list-style-position: outside !important;\x7d.NBAIEditor_Theme".toList ++
    "__ol2 \x7bpadding: 0 !important;margin: 0 !important;list-style-type: lower-alpha !importa".toList ++
    "nt;list-style-position: outside !important;\x7dhtml body.post #content-div .content ol li ".toList ++
    "ol \x7bmargin: 0 !important;\x7d.NBAIEditor_Theme__ol3 \x7bpadding: 0 !important;margin: 0".toList ++
    " !important;list-style-type: lower-roman !important;list-style-position: outside !importan".toList ++
    "t;\x7d.NBAIEditor_Theme__ol4 \x7bpadding: 0;margin: 0;list-style-type: upper-roman !import".toList ++
    "ant;list-style-position: outside !important;\x7d.NBAIEditor_Theme__ol5 \x7bpadding: 0;marg".toList ++
    "in: 0;list-style-type: lower-roman !important;list-style-position: outside !important;\x7d".toList ++
    ".NBAIEditor_Theme__ul \x7bpadding: 0 !important;margin: 0 !important;margin-left: 20px !im".toList ++
    "portant;list-style-position: outside !important;\x7d@media all and (max-width: 600px) \x7b".toList ++
    ".NBAIEditor_Theme__ul \x7bmargin-left: 14px !important;\x7d\x7d.NBAIEditor_Theme__ul li .N".toList ++
    "BAIEditor_Theme__ul li .NBAIEditor_Theme__ul li::before \x7bdisplay: none !important;\x7d.".toList ++
    "NBAIEditor_Theme__ul .NBAIEditor_Theme__ul \x7blist-style-type: circle !important;margin-l".toList ++
    "eft: 0 !important;\x7d.NBAIEditor_Theme__ul .NBAIEditor_Theme__ul .NBAIEditor_Theme__ul ".toList ++
    "\x7blist-style-type: square !important;margin-left: 0 !important;\x7dhtml body.post #conte".toList ++
    "nt-div .content ul li ul li ul \x7bmargin-left: 0 !important;\x7d.ContentEditable__root > ".toList ++
    "ul \x7bmargin-bottom: 24px;padding: 0 0 0 20px;\x7d.NBAIEditor_Theme__listItem \x7bmargin:".toList ++
    " 0 !important;padding: 0 !important;\x7d.NBAIEditor_Theme__nestedListItem \x7blist-style-t".toList ++
    "ype: none !important;padding: 0 0 0 24px !important;\x7d.NBAIEditor_Theme__nestedListItem:".toList ++
    "before, .NBAIEditor_Theme__nestedListItem:after \x7bdisplay: none;\x7d.editor-image-wrap ".toList ++
    "\x7bdisplay: flex;flex-direction: column;position: relative;margin: 24px auto 12px;\x7d.ed".toList ++
    "itor-image-wrap .editor-image \x7bposition: relative;z-index: 1;cursor: pointer;margin-top".toList ++
    ": 0;\x7d.editor-image-wrap .editor-image img \x7bwidth: 100%;border-radius: 8px;margin-top".toList ++
    ": 0;\x7d.editor-image-wrap .image-introduction-wrap \x7bfont-size: 14px;line-height: 20px;".toList ++
    "color: rgba(0, 0, 0, 0.6);margin-top: 12px;user-select: none;\x7d:root[class~=\"dark\"] .e".toList ++
    "ditor-image-wrap .image-introduction-wrap \x7bcolor: inherit;\x7d.editor-image-wrap .image".toList ++
    "-introduction-wrap .image-caption \x7bmargin-right: 3px;\x7d.editor-image-wrap .image-intr".toList ++
    "oduction-wrap .photo-by \x7bcolor: rgba(0, 0, 0, 0.3);\x7d:root[class~=\"dark\"] .editor-i".toList ++
    "mage-wrap .image-introduction-wrap .photo-by \x7bcolor: rgba(255, 255, 255, .6);\x7d.edito".toList ++
    "r-image-wrap .image-introduction-wrap .credit-text \x7bmargin-left: 6px;\x7d.editor-image-".toList ++
    "wrap .image-introduction-wrap .credit-text a \x7bcolor: rgba(0, 0, 0, 0.6);position: relat".toList ++
    "ive;text-decoration: underline;text-underline-offset: 5px;text-decoration-color: rgba(0, 0".toList ++
    ", 0, 0.3);\x7d:root[class~=\"dark\"] .editor-image-wrap .image-introduction-wrap .credit-t".toList ++
    "ext a \x7bcolor: rgb(47, 128, 237);text-decoration: none;\x7d.editor-image-wrap .image-int".toList ++
    "roduction-wrap .text-on \x7bfont-size: 14px;line-height: 20px;color: rgba(0, 0, 0, 0.3);ma".toList ++
    "rgin-left: 6px;\x7d:root[class~=\"dark\"] .editor-image-wrap .image-introduction-wrap .tex".toList ++
    "t-on \x7bcolor: rgba(255, 255, 255, .6);\x7d.editor-image-wrap .image-introduction-wrap .l".toList ++
    "ink-unsplash-official \x7bposition: relative;margin-left: 6px;color: rgba(0, 0, 0, 0.6);te".toList ++
    "xt-decoration: underline;text-underline-offset: 5px;text-decoration-color: rgba(0, 0, 0, 0".toList ++
    ".3);\x7d:root[class~=\"dark\"] .editor-image-wrap .image-introduction-wrap .link-unsplash-".toList ++
    "official \x7bcolor: rgb(47, 128, 237);text-decoration: none;\x7d.node-embed-wrap \x7bdispl".toList ++
    "ay: flex;justify-content: center;\x7d.node-embed-wrap .node-embed \x7bposition: relative;w".toList ++
    "idth: 100%;box-sizing: content-box;\x7d.node-embed-wrap .node-embed .mask \x7bposition: ab".toList ++
    "solute;left: 0;right: 0;top: 0;bottom: 0;background-color: #fff;opacity: 0.5;z-index: 1;".toList ++
    "\x7d.node-embed-wrap .node-embed .btn-edit-delete \x7bposition: absolute;top: 38px;right: ".toList ++
    "32px;cursor: pointer;z-index: 2;\x7d.node-embed-wrap .node-embed:hover \x7bborder: 2px sol".toList ++
    "id rgba(36, 81, 255, 0.3);\x7d.node-embed-wrap .node-embed.selected \x7bborder: 2px solid ".toList ++
    "rgba(36, 81, 255, 0.6);\x7d#node-article-wrap \x7bdisplay: flex;justify-content: center;al".toList ++
    "ign-items: center;border-radius: 11px;border: 1px solid #f2f2f2;padding: 18px 32px;\x7d#no".toList ++
    "de-article-wrap .node-container \x7bwidth: 100%;\x7d#node-article-wrap .node-container .ti".toList ++
    "tle \x7bmargin: 0;font-size: 20px;color: var(--main-color);font-weight: 600;line-height: 2".toList ++
    "8px;overflow: hidden;text-overflow: ellipsis;display:-webkit-box;-webkit-line-clamp:2;-web".toList ++
    "kit-box-orient: vertical;\x7d#node-article-wrap .node-container .info \x7bmargin: 0;displa".toList ++
    "y: flex;justify-content: flex-start;align-items: center;font-size: 14px;color: var(--secon".toList ++
    "dary-color);line-height: 20px;\x7d#node-article-wrap .node-container .info .avatar \x7bmar".toList ++
    "gin: 0;width: 20px !important;height: 20px;border-radius: 50%;\x7d#node-article-wrap .node".toList ++
    "-container .info .media-name \x7bmargin-left: 8px;\x7d#node-article-wrap .node-container .".toList ++
    "info .date \x7bmargin-left: 2px;\x7d#node-article-wrap .node-container .thumbnail \x7bmarg".toList ++
    "in-top: 16px;width: 100%;border-radius: 8px;\x7d#node-article-wrap.selected \x7bborder: 2p".toList ++
    "x solid rgba(36, 81, 255, 0.6);\x7d.embedcard-twitter \x7bposition: relative;display: flex".toList ++
    ";justify-content: center;align-items: center;flex-direction: column;width: 100%;height: 10".toList ++
    "0%;margin: 0 !important;\x7d.embedcard-twitter .loading \x7bposition: absolute;left: 50%;t".toList ++
    "op: 50%;transform: translate(-50%, -50%);z-index: 9;\x7d.embedcard-twitter .embed-holder ".toList ++
    "\x7bposition: relative;width: 100%;margin: 0 !important;\x7d.embedcard-twitter .embed-hold".toList ++
    "er .twitter-tweet \x7bmargin: 0 !important;\x7d.embedcard-youtube \x7bposition: relative;d".toList ++
    "isplay: flex;justify-content: center;align-items: center;flex-direction: column;width: 100".toList ++
    "%;height: 100%;margin: 0 !important;\x7d.embedcard-youtube .loading \x7bposition: absolute".toList ++
    ";left: 50%;top: 50%;transform: translate(-50%, -50%);z-index: 9;\x7d.embedcard-youtube .em".toList ++
    "bed-holder \x7bposition: relative;width: 100%;height: 0;padding-bottom: 56.25%;margin: 0 !".toList ++
    "important;\x7d.embedcard-youtube .embed-holder .iframe \x7bposition: absolute;left: 0;top:".toList ++
    " 0;width: 100%;height: 100%;\x7d.embedcard-instagram \x7bposition: relative;display: flex;".toList ++
    "justify-content: center;align-items: center;flex-direction: column;width: 100%;height: 100".toList ++
    "%;margin: 0 !important;\x7d.embedcard-instagram .loading \x7bposition: absolute;left: 50%;".toList ++
    "top: 50%;transform: translate(-50%, -50%);z-index: 9;\x7d.embedcard-instagram .embed-holde".toList ++
    "r \x7bposition: relative;width: 100%;margin: 0 !important;\x7d.embedcard-instagram .embed-".toList ++
    "holder iframe \x7bmargin: 0 !important;\x7d.embedcard-facebook \x7bposition: relative;disp".toList ++
    "lay: flex;justify-content: center;align-items: center;flex-direction: column;width: 100%;h".toList ++
    "eight: 100%;margin: 0 !important;\x7d.embedcard-facebook .loading \x7bposition: absolute;l".toList ++
    "eft: 50%;top: 50%;transform: translate(-50%, -50%);z-index: 9;\x7d.embedcard-facebook .emb".toList ++
    "ed-holder \x7bposition: relative;width: 100%;margin: 0 !important;\x7d.embedcard-facebook ".toList ++
    ".embed-holder iframe \x7bmargin: 0 !important;\x7d</style>".toList

/-! ## C6: content assembly of `build_article_json` and `make_publish` -/

/-- The draft payload dictionary built by `build_article_json`
(`generate_draft.py` lines 64-177).  `md` is the external
`markdown.markdown` collaborator. -/
structure ArticleDict where
  title : List Char
  content : List Char
  covers : List (List Char)
  isEvergreen : Bool
  location : List Char
  locationPid : List Char
  mpTagsManual : List (List Char)
  editorVersion : List Char

def buildArticleJson (md : List Char → List Char)
    (title articleCredit imageLink imageCredit articleContent : List Char) :
    ArticleDict :=
  let rawImageCredit := stripCredit (md imageCredit)
  let imageBlock := createImageBlock imageLink rawImageCredit
  let htmlContent := wrapParagraphs (md articleContent)
  let rawArticleCredit := stripCredit (md articleCredit)
  let articleCreditHtml := decorate rawArticleCredit
  let combinedContent := articleCreditHtml ++ htmlContent
  { title := title
    content := imageBlock ++ combinedContent ++ styleBlock
    covers := if imageLink.isEmpty then [] else [imageLink]
    isEvergreen := false
    location := []
    locationPid := []
    mpTagsManual := []
    editorVersion := "1.0".toList }

/-- The empty paragraph inserted by `make_publish`. -/
def emptyParagraph : List Char :=
  "<p class=\"NBAIEditor_Theme__paragraph\"><br></p>".toList

/-- The `final_content` string assembled by `make_publish`
(`make_publish.py` lines 157-255). -/
def makePublishContent (md : List Char → List Char)
    (imageLink imageCredit articleContent : List Char) : List Char :=
  let rawImageCredit := stripCredit (md imageCredit)
  let htmlContent := wrapParagraphs (md articleContent)
  let imageBlock :=
    if imageLink.isEmpty then [] else createImageBlock imageLink rawImageCredit
  imageBlock ++ htmlContent ++ emptyParagraph ++ styleBlock

/-- C6: the draft-path content is exactly
`[image block][article-credit paragraph][decorated body][CSS block]` in that
order, and the publish-path content is exactly
`[image block][decorated body][empty paragraph][CSS block]` — with no
credit paragraph in the publish variant. -/
theorem content_ordering (md : List Char → List Char)
    (title articleCredit imageLink imageCredit articleContent : List Char)
    (himg : imageLink.isEmpty = false) :
    (buildArticleJson md title articleCredit imageLink imageCredit
        articleContent).content =
      createImageBlock imageLink (stripCredit (md imageCredit)) ++
        (decorate (stripCredit (md articleCredit)) ++
          (wrapParagraphs (md articleContent) ++ styleBlock)) ∧
    makePublishContent md imageLink imageCredit articleContent =
      createImageBlock imageLink (stripCredit (md imageCredit)) ++
        (wrapParagraphs (md articleContent) ++ (emptyParagraph ++ styleBlock)) := by
  constructor
  · simp [buildArticleJson, List.append_assoc]
  · simp [makePublishContent, himg, List.append_assoc]

theorem content_ordering_witness :
    ("https://x/i.jpg".toList).isEmpty = false ∧
    ((buildArticleJson (fun s => s) "t".toList "by A".toList "https://x/i.jpg".toList
        "cr".toList "body".toList).content =
      createImageBlock "https://x/i.jpg".toList (stripCredit "cr".toList) ++
        (decorate (stripCredit "by A".toList) ++
          (wrapParagraphs "body".toList ++ styleBlock)) ∧
    makePublishContent (fun s => s) "https://x/i.jpg".toList "cr".toList "body".toList =
      createImageBlock "https://x/i.jpg".toList (stripCredit "cr".toList) ++
        (wrapParagraphs "body".toList ++ (emptyParagraph ++ styleBlock))) :=
  ⟨by decide, content_ordering (fun s => s) "t".toList "by A".toList
    "https://x/i.jpg".toList "cr".toList "body".toList (by decide)⟩

/-! ## C5: uniqueness salting in `create_draft` (`generate_draft.py`
lines 200-216) -/

/-- `unique_suffix = f"{timestamp}-{random.randint(1000, 9999)}"`. -/
def uniqueSuffix (ts r : Nat) : List Char := natDec ts ++ '-' :: natDec r

/-- `unique_title = f"{title} [{unique_suffix}]"`. -/
def uniqueTitle (title : List Char) (ts r : Nat) : List Char :=
  title ++ ' ' :: '[' :: (uniqueSuffix ts r ++ [']'])

/-- `unique_content = f"{article_content}\n\n[Draft ID: {uuid4()}]"`. -/
def uniqueContent (content uuid : List Char) : List Char :=
  content ++ "\n\n[Draft ID: ".toList ++ uuid ++ [']']

/-- The text of the draft-marker paragraph the salt appends after a blank
line: `[Draft ID: uuid]`. -/
def draftMarker (uuid : List Char) : List Char :=
  "[Draft ID: ".toList ++ uuid ++ [']']

/-- Append one final paragraph to a document (before the trailing text of
its last segment, with no text after it). -/
def snocPara : HtmlDoc → List Char → HtmlDoc
  | .tail t, inner => .para t inner (.tail [])
  | .para b i r, inner => .para b i (snocPara r inner)

theorem wrapParagraphs_wf (d : HtmlDoc) (hw : wfDoc d) :
    wrapParagraphs (renderDoc d) = renderWrapped d :=
  wrapParaGo_doc d _ (Nat.lt_succ_self _) hw

theorem snocPara_render_inj (d : HtmlDoc) {m1 m2 : List Char}
    (h : renderWrapped (snocPara d m1) = renderWrapped (snocPara d m2)) :
    m1 = m2 := by
  induction d with
  | tail t =>
    simp only [snocPara, renderWrapped, decorate, List.append_nil] at h
    have h1 := List.append_cancel_left h
    have h2 := List.append_cancel_right h1
    exact List.append_cancel_left h2
  | para b i r ih =>
    simp only [snocPara, renderWrapped] at h
    exact ih (List.append_cancel_left (List.append_cancel_left h))

theorem draftMarker_inj {u1 u2 : List Char} (h : draftMarker u1 = draftMarker u2) :
    u1 = u2 := by
  unfold draftMarker at h
  exact List.append_cancel_left (List.append_cancel_right h)

/-- C5: two `create_draft` invocations over the same input fields build
payloads whose titles differ (provided the timestamp/random draws differ)
and whose content bodies differ (provided the drawn draft-marker UUIDs
differ).  The payload title is the salted title verbatim.  For the body,
the `markdown.markdown` collaborator is constrained by its contract on the
salted input: the blank line before the marker starts a fresh block, so
the rendering is the rendering of the unsalted body (`base`, independent
of the UUID) followed by one paragraph holding the marker text verbatim
(`hmd1`/`hmd2`, with the well-formedness the marker's inert characters
guarantee); under it the two payloads' `content` fields differ. -/
theorem create_draft_salting (md : List Char → List Char)
    (title articleCredit imageLink imageCredit content : List Char)
    (ts1 r1 ts2 r2 : Nat) (uuid1 uuid2 : List Char) (base : HtmlDoc)
    (hsalt : (ts1, r1) ≠ (ts2, r2)) (huuid : uuid1 ≠ uuid2)
    (hmd1 : md (uniqueContent content uuid1) =
      renderDoc (snocPara base (draftMarker uuid1)))
    (hmd2 : md (uniqueContent content uuid2) =
      renderDoc (snocPara base (draftMarker uuid2)))
    (hw1 : wfDoc (snocPara base (draftMarker uuid1)))
    (hw2 : wfDoc (snocPara base (draftMarker uuid2))) :
    (buildArticleJson md (uniqueTitle title ts1 r1) articleCredit imageLink
        imageCredit (uniqueContent content uuid1)).title ≠
      (buildArticleJson md (uniqueTitle title ts2 r2) articleCredit imageLink
        imageCredit (uniqueContent content uuid2)).title ∧
    (buildArticleJson md (uniqueTitle title ts1 r1) articleCredit imageLink
        imageCredit (uniqueContent content uuid1)).content ≠
      (buildArticleJson md (uniqueTitle title ts2 r2) articleCredit imageLink
        imageCredit (uniqueContent content uuid2)).content := by
  constructor
  · show uniqueTitle title ts1 r1 ≠ uniqueTitle title ts2 r2
    intro he
    unfold uniqueTitle at he
    have h1 := List.append_cancel_left he
    simp only [List.cons.injEq, true_and] at h1
    have h2 := List.append_cancel_right h1
    unfold uniqueSuffix at h2
    obtain ⟨hts, hr⟩ := sep_unique (dash_not_mem_natDec ts1) (dash_not_mem_natDec ts2) h2
    exact hsalt (by rw [natDec_inj hts, natDec_inj hr])
  · intro he
    have hc1 : (buildArticleJson md (uniqueTitle title ts1 r1) articleCredit imageLink
        imageCredit (uniqueContent content uuid1)).content =
        (createImageBlock imageLink (stripCredit (md imageCredit)) ++
          decorate (stripCredit (md articleCredit))) ++
          (wrapParagraphs (md (uniqueContent content uuid1)) ++ styleBlock) := by
      simp [buildArticleJson, List.append_assoc]
    have hc2 : (buildArticleJson md (uniqueTitle title ts2 r2) articleCredit imageLink
        imageCredit (uniqueContent content uuid2)).content =
        (createImageBlock imageLink (stripCredit (md imageCredit)) ++
          decorate (stripCredit (md articleCredit))) ++
          (wrapParagraphs (md (uniqueContent content uuid2)) ++ styleBlock) := by
      simp [buildArticleJson, List.append_assoc]
    rw [hc1, hc2] at he
    have h1 := List.append_cancel_left he
    have h2 := List.append_cancel_right h1
    rw [hmd1, hmd2, wrapParagraphs_wf _ hw1, wrapParagraphs_wf _ hw2] at h2
    exact huuid (draftMarker_inj (snocPara_render_inj base h2))

/-- A body whose rendering is the single paragraph `<p>b</p>`. -/
def exBase : HtmlDoc := .para [] "b".toList (.tail [])

/-- A concrete stand-in for `markdown.markdown` satisfying the salted-input
contract at the witness's two inputs. -/
def exMd (s : List Char) : List Char :=
  if s = uniqueContent "b".toList "a".toList then
    renderDoc (snocPara exBase (draftMarker "a".toList))
  else
    renderDoc (snocPara exBase (draftMarker "b".toList))

theorem create_draft_salting_witness :
    (((1, 2) : Nat × Nat) ≠ (1, 3) ∧ "a".toList ≠ "b".toList ∧
      exMd (uniqueContent "b".toList "a".toList) =
        renderDoc (snocPara exBase (draftMarker "a".toList)) ∧
      exMd (uniqueContent "b".toList "b".toList) =
        renderDoc (snocPara exBase (draftMarker "b".toList)) ∧
      wfDoc (snocPara exBase (draftMarker "a".toList)) ∧
      wfDoc (snocPara exBase (draftMarker "b".toList))) ∧
    ((buildArticleJson exMd (uniqueTitle "t".toList 1 2) "c".toList
        "i".toList "ic".toList (uniqueContent "b".toList "a".toList)).title ≠
      (buildArticleJson exMd (uniqueTitle "t".toList 1 3) "c".toList
        "i".toList "ic".toList (uniqueContent "b".toList "b".toList)).title ∧
    (buildArticleJson exMd (uniqueTitle "t".toList 1 2) "c".toList
        "i".toList "ic".toList (uniqueContent "b".toList "a".toList)).content ≠
      (buildArticleJson exMd (uniqueTitle "t".toList 1 3) "c".toList
        "i".toList "ic".toList (uniqueContent "b".toList "b".toList)).content) :=
  ⟨⟨by decide, by decide, by decide, by decide, by decide, by decide⟩,
    create_draft_salting exMd "t".toList "c".toList "i".toList "ic".toList
      "b".toList 1 2 1 3 "a".toList "b".toList exBase (by decide) (by decide)
      (by decide) (by decide) (by decide) (by decide)⟩

/-! ## C4: location validation in `make_publish` -/

/-- `allowed_locations` in `validate_location` (`make_publish.py`
lines 48-52). -/
def allowedLocations : List (List Char) :=
  ["Entire U.S".toList, "Cambridge, MA".toList, "Boston, MA".toList,
    "Massachusetts State".toList]

/-- `validate_location` passes exactly when the location is in the closed
list; otherwise the Python function raises `ValueError`. -/
def validateLocation (location : List Char) : Bool :=
  allowedLocations.contains location

inductive PublishPrefixOutcome where
  | valueError (missingFields : Bool)
  | request

/-- The pure prefix of `make_publish` (`make_publish.py` lines 145-151)
before any network activity: the required-fields check raises `ValueError`,
then `validate_location` raises `ValueError`, and only then does the
function proceed towards issuing the HTTP request. -/
def makePublishPrefix
    (title authorName articleContent dataId location : List Char) :
    PublishPrefixOutcome :=
  if title.isEmpty || authorName.isEmpty || articleContent.isEmpty || dataId.isEmpty then
    .valueError true
  else if validateLocation location = false then .valueError false
  else .request

/-- C4: with a location outside the closed enumeration `make_publish`
raises a validation error before any network request is issued, and with a
location in the enumeration (and the required fields present) the
validation passes and the function proceeds to the request. -/
theorem make_publish_location_validation
    (title authorName articleContent dataId location : List Char) :
    (validateLocation location = false →
      makePublishPrefix title authorName articleContent dataId location ≠
        PublishPrefixOutcome.request) ∧
    (validateLocation location = true → title.isEmpty = false →
      authorName.isEmpty = false → articleContent.isEmpty = false →
      dataId.isEmpty = false →
      makePublishPrefix title authorName articleContent dataId location =
        PublishPrefixOutcome.request) := by
  constructor
  · intro hv hreq
    unfold makePublishPrefix at hreq
    split_ifs at hreq with h1 h2 <;> simp_all
  · intro hv h1 h2 h3 h4
    rw [makePublishPrefix, if_neg (by simp [h1, h2, h3, h4]),
      if_neg (by simp [hv])]

theorem make_publish_location_validation_witness :
    validateLocation "Paris".toList = false ∧
    makePublishPrefix "t".toList "a".toList "c".toList "d".toList "Paris".toList ≠
      PublishPrefixOutcome.request ∧
    makePublishPrefix "t".toList "a".toList "c".toList "d".toList
      "Entire U.S".toList = PublishPrefixOutcome.request :=
  ⟨by decide,
    (make_publish_location_validation "t".toList "a".toList "c".toList "d".toList
      "Paris".toList).1 (by decide),
    (make_publish_location_validation "t".toList "a".toList "c".toList "d".toList
      "Entire U.S".toList).2 (by decide) (by decide) (by decide) (by decide)
      (by decide)⟩

/-! ## Response handling: C7-C10 -/

instance : Inhabited JVal := ⟨JVal.jnull⟩

/-- Python truthiness of a decoded JSON value (`if not draft_data`,
`if not data_id`). -/
def pyTruthy : JVal → Bool
  | .jnull => false
  | .jbool b => b
  | .jnum n => n != 0
  | .jstr s => !s.isEmpty
  | .jarr xs => !xs.isEmpty
  | .jobj kvs => !kvs.isEmpty

/-- Python dict lookup `data.get(key)` on a decoded JSON object (whose keys
are unique after `json.loads`). -/
def objGet : List (List Char × JVal) → List Char → Option JVal
  | [], _ => none
  | (k, v) :: rest, key => if k = key then some v else objGet rest key

/-- Python `data.get('code') == 0` (an absent key yields `None ≠ 0`): true
exactly for the JSON number `0` and for `false`, since Python's `False`
equals `0`. -/
def pyEqZero : Option JVal → Bool
  | some (.jnum n) => n == 0
  | some (.jbool b) => !b
  | _ => false

/-- `process_json_response` (`newsbreak_api.py` lines 65-88).  The argument
is the outcome of `json.loads` on the response body — `none` when the body
is unparsable, which includes every HTML page. -/
def processJsonResponse (parsed : Option JVal) : Option JVal :=
  match parsed with
  | none => none
  | some v =>
    match v with
    | .jobj kvs => if pyEqZero (objGet kvs "code".toList) then some v else none
    | _ => some v

/-- The draft-stage decision of `main` (`newsbreak_api.py` lines 121-144):
`some d` when the run proceeds to the image upload with identifier `d`,
`none` when it exits with status 1 — including the `AttributeError` raised
by `.get` on a non-dict value, which the outer handler turns into an
abort. -/
def draftStage (parsed : Option JVal) : Option JVal :=
  match processJsonResponse parsed with
  | none => none
  | some v =>
    if pyTruthy v = false then none
    else
      match v with
      | .jobj kvs =>
        match objGet kvs "data".toList with
        | none => none
        | some d => if pyTruthy d then some d else none
      | _ => none

/-- C7: the draft step proceeds to the image upload exactly when the body
parses as a JSON object whose `code` equals the success code `0` and whose
`data` field is a non-empty identifier; an unparsable body (HTML included),
a non-zero `code`, or a missing/empty `data` all abort the run. -/
theorem draft_stage_gate (parsed : Option JVal) (d : JVal) :
    draftStage parsed = some d ↔
      ∃ kvs, parsed = some (JVal.jobj kvs) ∧
        pyEqZero (objGet kvs "code".toList) = true ∧
        objGet kvs "data".toList = some d ∧ pyTruthy d = true := by
  cases parsed with
  | none => simp [draftStage, processJsonResponse]
  | some v =>
    cases v with
    | jnull => simp [draftStage, processJsonResponse, pyTruthy]
    | jbool b => cases b <;> simp [draftStage, processJsonResponse, pyTruthy]
    | jnum n =>
      by_cases hn : (n != 0) = true <;>
        simp [draftStage, processJsonResponse, pyTruthy, hn]
    | jstr s =>
      by_cases hs : s.isEmpty <;>
        simp [draftStage, processJsonResponse, pyTruthy, hs]
    | jarr xs =>
      by_cases hs : xs.isEmpty <;>
        simp [draftStage, processJsonResponse, pyTruthy, hs]
    | jobj kvs =>
      by_cases hc : pyEqZero (objGet kvs "code".toList) = true
      · cases kvs with
        | nil => simp [pyEqZero, objGet] at hc
        | cons kv rest =>
          simp only [draftStage, processJsonResponse, hc, if_true]
          have ht : pyTruthy (JVal.jobj (kv :: rest)) = true := by
            simp [pyTruthy]
          rw [ht]
          simp only [Bool.true_eq_false, if_false]
          cases hd : objGet (kv :: rest) "data".toList with
          | none => simp_all
          | some dd =>
            by_cases hdd : pyTruthy dd = true <;> simp_all <;>
              (rintro rfl; exact hdd)
      · simp_all [draftStage, processJsonResponse]

/-! ## C8: HTML-response detection vs application errors (`make_publish.py`) -/

/-- `str.lower()` restricted to ASCII letters (the only characters the
`<html` probe can match). -/
def lowerList (s : List Char) : List Char := s.map Char.toLower

/-- Python `pat in s` substring test. -/
def containsSub (pat s : List Char) : Bool := (splitFirst pat s).isSome

/-- `is_html_response` (`make_publish.py` lines 19-21):
`text.strip().startswith('<!') or '<html' in text.lower()`. -/
def isHtmlResponse (text : List Char) : Bool :=
  isPre "<!".toList (pyStrip text) || containsSub "<html".toList (lowerList text)

/-- Decimal rendering of a Python `int`. -/
def pyStrInt (i : Int) : List Char :=
  if i < 0 then '-' :: natDec (-i).toNat else natDec i.toNat

/-- Quote character CPython `repr` picks for a string: `'` unless the
string holds a `'` but no `"`. -/
def pyReprQuote (s : List Char) : Char :=
  if s.contains '\'' && !(s.contains '"') then '"' else '\''

/-- Escaping of one character inside a CPython string `repr` with quote
`q`. Other non-printable characters would also be escaped by CPython;
those branches are never exercised here. -/
def pyEscChar (q c : Char) : List Char :=
  if c = '\\' then ['\\', '\\']
  else if c = q then ['\\', q]
  else if c = '\n' then ['\\', 'n']
  else if c = '\r' then ['\\', 'r']
  else if c = '\t' then ['\\', 't']
  else [c]

/-- CPython `repr` of a string. -/
def pyReprStr (s : List Char) : List Char :=
  let q := pyReprQuote s
  q :: (s.map (pyEscChar q)).join ++ [q]

mutual

/-- CPython `repr` of a JSON value (as the Python objects `json.loads`
yields). -/
def pyRepr : JVal → List Char
  | .jnull => "None".toList
  | .jbool true => "True".toList
  | .jbool false => "False".toList
  | .jnum n => pyStrInt n
  | .jstr s => pyReprStr s
  | .jarr xs => '[' :: pyReprList xs ++ [']']
  | .jobj kvs => '\x7b' :: pyReprMembers kvs ++ ['\x7d']

/-- `repr` of the elements of a Python list, `", "`-separated. -/
def pyReprList : List JVal → List Char
  | [] => []
  | [x] => pyRepr x
  | x :: y :: rest => pyRepr x ++ ", ".toList ++ pyReprList (y :: rest)

/-- `repr` of the members of a Python dict, `", "`-separated. -/
def pyReprMembers : List (List Char × JVal) → List Char
  | [] => []
  | [(k, v)] => pyReprStr k ++ ": ".toList ++ pyRepr v
  | (k, v) :: m :: rest =>
    pyReprStr k ++ ": ".toList ++ pyRepr v ++ ", ".toList ++ pyReprMembers (m :: rest)

end

/-- Python `str()` as used by the f-strings of `validate_response`:
identity on strings, `repr` otherwise. -/
def pyStr : JVal → List Char
  | .jstr s => s
  | v => pyRepr v

/-- `str()` of a `dict.get` result, `None` rendered as `"None"`. -/
def pyStrOpt : Option JVal → List Char
  | none => "None".toList
  | some v => pyStr v

/-- `str()` of `data.get('message', 'No message')`. -/
def pyStrMsg : Option JVal → List Char
  | none => "No message".toList
  | some v => pyStr v

/-- The protocol-error message of `validate_response` for an HTML body. -/
def htmlErrMsg : List Char :=
  "Received HTML response instead of JSON. Session may have expired.".toList

/-- The application-error message of `validate_response`:
`f"API returned error code: \x7bdata.get('code')\x7d - \x7bdata.get('message', 'No message')\x7d"`. -/
def appErrorMsg (kvs : List (List Char × JVal)) : List Char :=
  "API returned error code: ".toList ++ pyStrOpt (objGet kvs "code".toList) ++
    " - ".toList ++ pyStrMsg (objGet kvs "message".toList)

/-- `validate_response` (`make_publish.py` lines 23-46), with `json.loads`
of the stripped body supplied as `parsed` (`none` = `JSONDecodeError`).
Returns `(is_valid, error_message)`. -/
def validateResponse (status : Nat) (text : List Char) (parsed : Option JVal) :
    Bool × List Char :=
  if status ≠ 200 then
    (false, "Request failed with status code: ".toList ++ natDec status)
  else if isHtmlResponse (pyStrip text) then
    (false, htmlErrMsg)
  else
    match parsed with
    | none => (false, "Failed to parse response as JSON".toList)
    | some (JVal.jobj kvs) =>
      if pyEqZero (objGet kvs "code".toList) then (true, [])
      else (false, appErrorMsg kvs)
    | some _ => (true, [])

/-- C8: with a 200 status, an HTML body is rejected with the
session-expired protocol message regardless of any parse outcome, a
JSON-object body with `code ≠ 0` is rejected with the service-supplied
application message, and the two messages are distinct. -/
theorem html_vs_application_error (text text2 : List Char) (parsed : Option JVal)
    (kvs : List (List Char × JVal))
    (hhtml : isHtmlResponse (pyStrip text) = true)
    (hnothtml : isHtmlResponse (pyStrip text2) = false)
    (hcode : pyEqZero (objGet kvs "code".toList) = false) :
    validateResponse 200 text parsed = (false, htmlErrMsg) ∧
    validateResponse 200 text2 (some (JVal.jobj kvs)) = (false, appErrorMsg kvs) ∧
    appErrorMsg kvs ≠ htmlErrMsg := by
  refine ⟨?_, ?_, ?_⟩
  · simp [validateResponse, hhtml]
  · simp [validateResponse, hnothtml, hcode]
    exact hcode
  · intro h
    have ha : (appErrorMsg kvs).head? = some 'A' := rfl
    rw [h] at ha
    exact absurd ha (by decide)

/-- Witness for C8 at a concrete doctype body and the envelope
`\x7b"code": 7, "message": "busy"\x7d`. -/
theorem html_vs_application_error_witness :
    (isHtmlResponse (pyStrip "<!DOCTYPE html>".toList) = true ∧
      isHtmlResponse (pyStrip "ok".toList) = false ∧
      pyEqZero (objGet [("code".toList, JVal.jnum 7),
        ("message".toList, JVal.jstr "busy".toList)] "code".toList) = false) ∧
    (validateResponse 200 "<!DOCTYPE html>".toList none = (false, htmlErrMsg) ∧
      validateResponse 200 "ok".toList
        (some (JVal.jobj [("code".toList, JVal.jnum 7),
          ("message".toList, JVal.jstr "busy".toList)])) =
        (false, appErrorMsg [("code".toList, JVal.jnum 7),
          ("message".toList, JVal.jstr "busy".toList)]) ∧
      appErrorMsg [("code".toList, JVal.jnum 7),
        ("message".toList, JVal.jstr "busy".toList)] ≠ htmlErrMsg) :=
  ⟨⟨by decide, by decide, by decide⟩,
    html_vs_application_error _ _ none _ (by decide) (by decide) (by decide)⟩

/-! ## C9: a failed NLP step aborts the run before `make_publish` -/

/-- The two stages of `main` that follow the content update
(`newsbreak_api.py` lines 236-264). -/
inductive RunStage
  | nlpCheck
  | publishCall
deriving DecidableEq

/-- The NLP success gate (`newsbreak_api.py` lines 245-249):
`nlp_response.get("code") == 0 and nlp_response.get("status") == "success"`.
A non-dict `nlp_response` makes `.get` raise `AttributeError`, which the
outer handler turns into `sys.exit(1)` as well, so it is `false` here. -/
def nlpSuccess (resp : JVal) : Bool :=
  match resp with
  | .jobj kvs =>
    pyEqZero (objGet kvs "code".toList) &&
      (match objGet kvs "status".toList with
       | some (.jstr s) => s == "success".toList
       | _ => false)
  | _ => false

/-- The stages executed from the NLP check on, with the exit status:
`none` when the run continues into the publish call, `some 1` when
`sys.exit(1)` fires at the gate. -/
def runFromNlp (resp : JVal) : List RunStage × Option Nat :=
  if nlpSuccess resp then ([RunStage.nlpCheck, RunStage.publishCall], none)
  else ([RunStage.nlpCheck], some 1)

/-- C9: whenever the NLP response fails the `code = 0` and
`status = "success"` gate, the run exits with status 1 right after the
NLP check and the publish stage is never reached. -/
theorem nlp_failure_aborts (resp : JVal) (h : nlpSuccess resp = false) :
    runFromNlp resp = ([RunStage.nlpCheck], some 1) ∧
    RunStage.publishCall ∉ (runFromNlp resp).1 ∧
    (runFromNlp resp).2 ≠ some 0 := by
  simp [runFromNlp, h]

/-- Witness for C9 at the envelope `\x7bcode: 7, message: "busy"\x7d`. -/
theorem nlp_failure_aborts_witness :
    nlpSuccess (JVal.jobj [("code".toList, JVal.jnum 7),
      ("message".toList, JVal.jstr "busy".toList)]) = false ∧
    (runFromNlp (JVal.jobj [("code".toList, JVal.jnum 7),
        ("message".toList, JVal.jstr "busy".toList)]) =
        ([RunStage.nlpCheck], some 1) ∧
      RunStage.publishCall ∉ (runFromNlp (JVal.jobj [("code".toList, JVal.jnum 7),
        ("message".toList, JVal.jstr "busy".toList)])).1 ∧
      (runFromNlp (JVal.jobj [("code".toList, JVal.jnum 7),
        ("message".toList, JVal.jstr "busy".toList)])).2 ≠ some 0) :=
  ⟨by decide, nlp_failure_aborts _ (by decide)⟩

/-! ## C10: `calculate_nlp` at the response-parsing boundary -/

/-- The fallback envelope `calculate_nlp` substitutes on
`json.JSONDecodeError` (`calculate.py` line 70). -/
def nlpDefaultResp : JVal :=
  JVal.jobj [("code".toList, JVal.jnum (-1)),
    ("status".toList, JVal.jstr "error".toList),
    ("message".toList, JVal.jstr "Failed to parse JSON response".toList)]

/-- The value triple `calculate_nlp` returns (`calculate.py` lines 64-72),
with `json.loads(response.text)` supplied as `parsed`
(`none` = `JSONDecodeError`). -/
def calculateNlpResult (httpStatus : Nat) (parsed : Option JVal) (reqId : List Char) :
    Nat × JVal × List Char :=
  (httpStatus, parsed.getD nlpDefaultResp, reqId)

/-- Whether a returned value is a dict carrying the documented `code`,
`status` and `message` keys. -/
def hasNlpKeys (v : JVal) : Bool :=
  match v with
  | .jobj kvs =>
    (objGet kvs "code".toList).isSome && (objGet kvs "status".toList).isSome &&
      (objGet kvs "message".toList).isSome
  | _ => false

/-- C10 counterexample: a body that is valid JSON but not an object —
here the body `42` — is returned to the caller as-is, so the caller does
not always receive a dictionary with `code`, `status` and `message`
keys. -/
theorem calculate_nlp_nondict_counterexample :
    calculateNlpResult 200 (some (JVal.jnum 42)) "rid".toList =
      (200, JVal.jnum 42, "rid".toList) ∧
    hasNlpKeys (JVal.jnum 42) = false :=
  ⟨rfl, rfl⟩

/-- C10 amended: `calculate_nlp` is total at the parsing boundary — an
unparsable body yields the fixed `code`/`status`/`message` fallback
envelope (which does carry those keys), while any successfully parsed
JSON value is passed through unchanged, dict or not. -/
theorem calculate_nlp_parse_totality (httpStatus : Nat) (reqId : List Char) :
    (calculateNlpResult httpStatus none reqId = (httpStatus, nlpDefaultResp, reqId) ∧
      hasNlpKeys nlpDefaultResp = true) ∧
    ∀ v, calculateNlpResult httpStatus (some v) reqId = (httpStatus, v, reqId) :=
  ⟨⟨rfl, rfl⟩, fun _ => rfl⟩
